import Mathlib

/-!
Verification of the authentication core of `hello-rust-api`.

The development shallowly embeds the Rust sources of the two services:

* `rs/src/services/auth/dpop/core.rs` — the DPoP proof verifier
  (`verify_proof`, `normalize_htu`, `build_expected_htu`,
  `build_htu_from_forwarded`, `build_htu_from_base`, `compute_ath`,
  `compute_jwk_thumbprint`);
* `rs/src/middleware/auth/access.rs` — the protected-request middleware
  (`access_middleware`), with its replay-store call;
* `auth/src/services/auth/token_service.rs`, `token_issuer.rs`,
  `refresh_token_issuer.rs`, and the repositories
  `auth_session_repo.rs` / `refresh_token_repo.rs` — issuance and refresh;
* `auth/src/api/v1/handlers/token.rs` and `auth/src/error.rs` — the token
  endpoint and its HTTP status mapping.

Machine integers are embedded as `Nat`/`Int` with explicit reduction
modulo `2 ^ 32` where the code relies on 32-bit wrap-around (SHA-256).
Cryptographic primitives that the code takes from crates are embedded
concretely where their output shape matters (SHA-256, base64url) and as
explicit oracles where only control flow matters (JWS parsing and
signature checking, `jsonwebtoken`).  The `url` crate is modelled on the
grammar of absolute `http(s)` URLs without userinfo, fragments or
characters requiring percent-encoding; outside that grammar the model
parser fails (conservatively) where the crate may still succeed.
Database tables are embedded as in-memory lists of rows with explicit
state passing; SQL `LIMIT 1` lookups become `List.find?`.
-/

/-! ## Byte and string helpers -/

/-- ASCII lowercasing of one character, like Rust `u8::to_ascii_lowercase`
(code points 65-90 shift up by 32, everything else is unchanged). -/
def asciiLower (c : Char) : Char :=
  if 65 ≤ c.toNat ∧ c.toNat ≤ 90 then Char.ofNat (c.toNat + 32) else c

/-- ASCII lowercasing of a character list. -/
def asciiLowerList (cs : List Char) : List Char := cs.map asciiLower

/-- ASCII lowercasing of a string, like Rust `str::to_ascii_lowercase`. -/
def asciiLowerStr (s : String) : String := ⟨asciiLowerList s.data⟩

/-- Rust `str::eq_ignore_ascii_case`. -/
def eqIgnoreAsciiCase (a b : String) : Bool :=
  asciiLowerList a.data = asciiLowerList b.data

/-- UTF-8 encoding of one character (RFC 3629), as byte values. -/
def utf8Char (c : Char) : List Nat :=
  let n := c.toNat
  if n < 128 then [n]
  else if n < 2048 then [192 + n / 64, 128 + n % 64]
  else if n < 65536 then [224 + n / 4096, 128 + n / 64 % 64, 128 + n % 64]
  else [240 + n / 262144, 128 + n / 4096 % 64, 128 + n / 64 % 64, 128 + n % 64]

/-- UTF-8 bytes of a string, like Rust `str::as_bytes`. -/
def strBytes (s : String) : List Nat :=
  s.data.foldr (fun c acc => utf8Char c ++ acc) []

/-! ## SHA-256 (the `sha2` crate's `Sha256`), over byte lists -/

/-- Truncation to a 32-bit word. -/
def w32 (n : Nat) : Nat := n % 4294967296

/-- 32-bit right rotation. -/
def rotr32 (x n : Nat) : Nat :=
  w32 ((x >>> n) ||| (x <<< (32 - n)))

/-- SHA-256 small sigma 0. -/
def ssig0 (x : Nat) : Nat := rotr32 x 7 ^^^ rotr32 x 18 ^^^ (x >>> 3)

/-- SHA-256 small sigma 1. -/
def ssig1 (x : Nat) : Nat := rotr32 x 17 ^^^ rotr32 x 19 ^^^ (x >>> 10)

/-- SHA-256 big sigma 0. -/
def bsig0 (x : Nat) : Nat := rotr32 x 2 ^^^ rotr32 x 13 ^^^ rotr32 x 22

/-- SHA-256 big sigma 1. -/
def bsig1 (x : Nat) : Nat := rotr32 x 6 ^^^ rotr32 x 11 ^^^ rotr32 x 25

/-- SHA-256 choice function. -/
def sha256Ch (e f g : Nat) : Nat := (e &&& f) ^^^ ((4294967295 - e) &&& g)

/-- SHA-256 majority function. -/
def sha256Maj (a b c : Nat) : Nat := (a &&& b) ^^^ (a &&& c) ^^^ (b &&& c)

/-- The 64 SHA-256 round constants. -/
def sha256K : List Nat :=
  [1116352408, 1899447441, 3049323471, 3921009573, 961987163, 1508970993,
   2453635748, 2870763221, 3624381080, 310598401, 607225278, 1426881987,
   1925078388, 2162078206, 2614888103, 3248222580, 3835390401, 4022224774,
   264347078, 604807628, 770255983, 1249150122, 1555081692, 1996064986,
   2554220882, 2821834349, 2952996808, 3210313671, 3336571891, 3584528711,
   113926993, 338241895, 666307205, 773529912, 1294757372, 1396182291,
   1695183700, 1986661051, 2177026350, 2456956037, 2730485921, 2820302411,
   3259730800, 3345764771, 3516065817, 3600352804, 4094571909, 275423344,
   430227734, 506948616, 659060556, 883997877, 958139571, 1322822218,
   1537002063, 1747873779, 1955562222, 2024104815, 2227730452, 2361852424,
   2428436474, 2756734187, 3204031479, 3329325298]

/-- Working state of the SHA-256 compression function. -/
structure Sha256State where
  a : Nat
  b : Nat
  c : Nat
  d : Nat
  e : Nat
  f : Nat
  g : Nat
  h : Nat

/-- SHA-256 initial state. -/
def sha256Init : Sha256State :=
  ⟨1779033703, 3144134277, 1013904242, 2773480762,
   1359893119, 2600822924, 528734635, 1541459225⟩

/-- One round of the SHA-256 compression function. -/
def sha256Round (st : Sha256State) (kw : Nat × Nat) : Sha256State :=
  let t1 := w32 (st.h + bsig1 st.e + sha256Ch st.e st.f st.g + kw.1 + kw.2)
  let t2 := w32 (bsig0 st.a + sha256Maj st.a st.b st.c)
  ⟨w32 (t1 + t2), st.a, st.b, st.c, w32 (st.d + t1), st.e, st.f, st.g⟩

/-- Big-endian 32-bit words of a 64-byte block. -/
def blockWords : List Nat → List Nat
  | b0 :: b1 :: b2 :: b3 :: rest =>
      (b0 * 16777216 + b1 * 65536 + b2 * 256 + b3) :: blockWords rest
  | _ => []

/-- Extend the 16 block words to the 64-entry message schedule.
`i` counts the remaining extension steps (48 at the top call). -/
def sha256Extend : Nat → List Nat → List Nat
  | 0, w => w
  | i + 1, w =>
      let n := w.length
      let x := w32 (w.getD (n - 16) 0 + ssig0 (w.getD (n - 15) 0) +
                    w.getD (n - 7) 0 + ssig1 (w.getD (n - 2) 0))
      sha256Extend i (w ++ [x])

/-- SHA-256 compression of one 64-byte block. -/
def sha256Compress (st : Sha256State) (block : List Nat) : Sha256State :=
  let w := sha256Extend 48 (blockWords block)
  let r := (sha256K.zip w).foldl sha256Round st
  ⟨w32 (st.a + r.a), w32 (st.b + r.b), w32 (st.c + r.c), w32 (st.d + r.d),
   w32 (st.e + r.e), w32 (st.f + r.f), w32 (st.g + r.g), w32 (st.h + r.h)⟩

/-- Fold the compression function over the first `n` 64-byte blocks. -/
def sha256Blocks : Nat → Sha256State → List Nat → Sha256State
  | 0, st, _ => st
  | n + 1, st, msg => sha256Blocks n (sha256Compress st (msg.take 64)) (msg.drop 64)

/-- Big-endian 8-byte encoding of a number (the padded bit length). -/
def be64 (n : Nat) : List Nat :=
  [n / 72057594037927936 % 256, n / 281474976710656 % 256,
   n / 1099511627776 % 256, n / 4294967296 % 256,
   n / 16777216 % 256, n / 65536 % 256, n / 256 % 256, n % 256]

/-- SHA-256 padding: append `0x80`, zeros to 56 mod 64, and the bit length. -/
def sha256Pad (msg : List Nat) : List Nat :=
  let len := msg.length
  msg ++ [128] ++ List.replicate ((64 - (len + 9) % 64) % 64) 0 ++ be64 (len * 8)

/-- Big-endian bytes of one 32-bit word. -/
def wordBytes (n : Nat) : List Nat :=
  [n / 16777216 % 256, n / 65536 % 256, n / 256 % 256, n % 256]

/-- SHA-256 of a byte list, as the 32 digest bytes. -/
def sha256 (msg : List Nat) : List Nat :=
  let padded := sha256Pad msg
  let st := sha256Blocks (padded.length / 64) sha256Init padded
  wordBytes st.a ++ wordBytes st.b ++ wordBytes st.c ++ wordBytes st.d ++
  wordBytes st.e ++ wordBytes st.f ++ wordBytes st.g ++ wordBytes st.h

/-! ## base64url without padding (the `base64` crate's `URL_SAFE_NO_PAD`) -/

/-- The base64url alphabet. -/
def b64Alphabet : List Char :=
  "ABCDEFGHIJKLMNOPQRSTUVWXYZabcdefghijklmnopqrstuvwxyz0123456789-_".data

/-- One sextet as a base64url character. -/
def b64Char (n : Nat) : Char := b64Alphabet.getD n 'A'

/-- base64url encoding without padding, over byte values. -/
def b64urlChars : List Nat → List Char
  | [] => []
  | [a] => [b64Char (a / 4), b64Char (a % 4 * 16)]
  | [a, b] => [b64Char (a / 4), b64Char (a % 4 * 16 + b / 16), b64Char (b % 16 * 4)]
  | a :: b :: c :: rest =>
      b64Char (a / 4) :: b64Char (a % 4 * 16 + b / 16) ::
      b64Char (b % 16 * 4 + c / 64) :: b64Char (c % 64) :: b64urlChars rest

/-- base64url (no padding) of a byte list, as a string. -/
def b64urlNoPad (bytes : List Nat) : String := ⟨b64urlChars bytes⟩

/-! ## Decimal digits -/

/-- The decimal digit characters. -/
def digitChars : List Char := "0123456789".data

/-- The character of one decimal digit. -/
def dch (n : Nat) : Char := digitChars.getD n '0'

/-- Is this character an ASCII decimal digit? -/
def isDig (c : Char) : Bool := 48 ≤ c.toNat ∧ c.toNat ≤ 57

/-- The number denoted by a list of decimal digit characters. -/
def digitsVal (cs : List Char) : Nat :=
  cs.foldl (fun acc c => acc * 10 + (c.toNat - 48)) 0

/-- Decimal digit characters of a number; `fuel` bounds the recursion and is
sufficient whenever it exceeds the number. -/
def natDigitsFuel : Nat → Nat → List Char
  | 0, _ => []
  | fuel + 1, n => if n < 10 then [dch n] else natDigitsFuel fuel (n / 10) ++ [dch (n % 10)]

/-- Decimal digit characters of a number, most significant first. -/
def natDigits (n : Nat) : List Char := natDigitsFuel (n + 1) n

/-! ## HTTP headers (axum `HeaderMap`)

A header map is the list of header name/value pairs in insertion order.
`headerGet` is `HeaderMap::get`: the FIRST value with the given
(ASCII-case-insensitive) name.  Header values are embedded as strings, so
`HeaderValue::to_str` (which only fails on non-visible-ASCII bytes) is
modelled as always succeeding. -/

/-- A request header list: name/value pairs in order. -/
def HeaderMap := List (String × String)

/-- `HeaderMap::get`: the first value whose name matches, case-insensitively. -/
def headerGet (h : HeaderMap) (name : String) : Option String :=
  (h.find? (fun p => eqIgnoreAsciiCase p.1 name)).map (fun p => p.2)

/-- How many headers of the given name a request carries. -/
def headerCount (h : HeaderMap) (name : String) : Nat :=
  (h.filter (fun p => eqIgnoreAsciiCase p.1 name)).length

/-! ## The `url` crate, on absolute http(s) URLs

`urlParse` models `url::Url::parse` restricted to the grammar
`scheme "://" host [":" port] [path] ["?" query]` without userinfo,
fragments, IPv6 hosts or characters that the crate would percent-encode;
on strings outside this grammar the model parser returns `none`
(a conservative failure).  Like the crate, it lowercases the scheme and
the host, defaults an empty path to `/`, collapses dot segments in the
path (`.` and `..`, also in their `%2e` percent forms, per the WHATWG
path state), rejects ports above `u16::MAX`, and hides a default port
(80 for http, 443 for https) so that `Url::port()` is `None` and the
serialization omits it. -/

/-- ASCII letter? -/
def isAlphaChar (c : Char) : Bool :=
  (65 ≤ c.toNat ∧ c.toNat ≤ 90) ∨ (97 ≤ c.toNat ∧ c.toNat ≤ 122)

/-- Characters the model admits in a host. -/
def isHostChar (c : Char) : Bool :=
  isAlphaChar c ∨ isDig c ∨ c = '-' ∨ c = '.' ∨ c = '_'

/-- Characters the model admits in a path (no `?` and no `#`). -/
def isPathChar (c : Char) : Bool :=
  isAlphaChar c ∨ isDig c ∨
  (['/', '-', '.', '_', '~', '%', '!', '$', '&', '(', ')', '*', '+', ',', ';', '=', ':', '@'] : List Char).contains c

/-- Characters the model admits in a query (no `#`). -/
def isQueryChar (c : Char) : Bool := isPathChar c ∨ c = '?'

/-- Split a character list at the first character satisfying `p`; the
delimiter stays at the head of the second component. -/
def takeUntil (p : Char → Bool) : List Char → List Char × List Char
  | [] => ([], [])
  | c :: cs =>
      if p c then ([], c :: cs)
      else
        let r := takeUntil p cs
        (c :: r.1, r.2)

/-- Split `scheme://rest` at the literal `://`. -/
def splitScheme : List Char → Option (List Char × List Char)
  | [] => none
  | c :: cs =>
      if c = ':' then
        match cs with
        | '/' :: '/' :: rest => some ([], rest)
        | _ => none
      else
        match splitScheme cs with
        | some r => some (c :: r.1, r.2)
        | none => none

/-- A parsed absolute URL, as the accessors of `url::Url` present it:
scheme and host already lowercased, default port hidden. -/
structure Url where
  scheme : String
  host : String
  port : Option Nat
  path : String
  query : Option String
deriving DecidableEq, Repr

/-- The known default port of a scheme (`http` 80, `https` 443). -/
def defaultPort (scheme : String) : Option Nat :=
  if scheme = "http" then some 80 else if scheme = "https" then some 443 else none

/-- Hide a scheme's default port, as `Url::port()` does. -/
def stripDefaultPort (scheme : String) : Option Nat → Option Nat
  | some p => if defaultPort scheme = some p then none else some p
  | none => none

/-- Split a path remainder (what follows the leading `/`) into its
`/`-separated segments, keeping empty segments. -/
def splitOnSlash : List Char → List (List Char)
  | [] => [[]]
  | c :: cs =>
    if c = '/' then [] :: splitOnSlash cs
    else
      match splitOnSlash cs with
      | s :: rest => (c :: s) :: rest
      | [] => [[c]]

/-- A single-dot path segment per WHATWG: `.` or an ASCII-case-insensitive
match for `%2e`. -/
def isSingleDotSeg (s : List Char) : Bool :=
  asciiLowerList s = ['.'] ∨ asciiLowerList s = ['%', '2', 'e']

/-- A double-dot path segment per WHATWG: `..` or an ASCII-case-insensitive
match for `.%2e`, `%2e.`, `%2e%2e`. -/
def isDoubleDotSeg (s : List Char) : Bool :=
  asciiLowerList s = ['.', '.'] ∨ asciiLowerList s = ['.', '%', '2', 'e'] ∨
  asciiLowerList s = ['%', '2', 'e', '.'] ∨ asciiLowerList s = ['%', '2', 'e', '%', '2', 'e']

/-- The WHATWG path state on a segment list: a double-dot segment pops the
last output segment (appending an empty segment when it ends the path),
a single-dot segment is dropped (likewise), and any other segment is
appended. -/
def collapseDotSegments (out : List (List Char)) : List (List Char) → List (List Char)
  | [] => out
  | [s] =>
    if isDoubleDotSeg s then out.dropLast ++ [[]]
    else if isSingleDotSeg s then out ++ [[]]
    else out ++ [s]
  | s :: s2 :: rest =>
    if isDoubleDotSeg s then collapseDotSegments out.dropLast (s2 :: rest)
    else if isSingleDotSeg s then collapseDotSegments out (s2 :: rest)
    else collapseDotSegments (out ++ [s]) (s2 :: rest)

/-- WHATWG path serialization: each segment prefixed by `/`. -/
def serializeSegs (segs : List (List Char)) : List Char :=
  (segs.map (fun s => '/' :: s)).flatten

/-- The url crate's path normalization: collapse dot segments of a
`/`-headed path (anything else is passed through; request targets are
always origin-form). -/
def normalizePathList (path : List Char) : List Char :=
  match path with
  | '/' :: rest => serializeSegs (collapseDotSegments [] (splitOnSlash rest))
  | other => other

/-- `normalizePathList` on strings (the path parser `Url::set_path` runs). -/
def normalizePathStr (path : String) : String := ⟨normalizePathList path.data⟩

/-- Host and port of an authority already split at `:`: validate the host
characters and parse the port digits (if a `:` was present); like the
crate, a port above `u16::MAX` is a parse failure. -/
def parseHostPort (hp : List Char × List Char) : Option (List Char × Option Nat) :=
  if hp.1 = [] ∨ ¬ hp.1.all isHostChar then none
  else
    match hp.2 with
    | [] => some (hp.1, none)
    | _ :: ds =>
      if ds ≠ [] ∧ ds.all isDig then
        if digitsVal ds < 65536 then some (hp.1, some (digitsVal ds)) else none
      else none

/-- Path and query from what follows the authority: an empty remainder
gives path `/`, a leading `?` gives path `/` plus the query, otherwise the
path runs to the first `?` and has its dot segments collapsed, as the
crate's WHATWG parser does. -/
def parsePathQuery (tail : List Char) : Option (List Char × Option (List Char)) :=
  match tail with
  | [] => some (['/'], none)
  | c :: cs =>
    if c = '?' then
      if cs.all isQueryChar then some (['/'], some cs) else none
    else
      if ¬ (takeUntil (fun c => c = '?') (c :: cs)).1.all isPathChar then none
      else
        match (takeUntil (fun c => c = '?') (c :: cs)).2 with
        | [] => some (normalizePathList (takeUntil (fun c => c = '?') (c :: cs)).1, none)
        | _ :: q =>
            if q.all isQueryChar then
              some (normalizePathList (takeUntil (fun c => c = '?') (c :: cs)).1, some q)
            else none

/-- `url::Url::parse` on the modelled grammar. -/
def urlParse (s : String) : Option Url :=
  match splitScheme s.data with
  | none => none
  | some (schemeCs, rest) =>
    if schemeCs = [] ∨ ¬ schemeCs.all isAlphaChar then none
    else
      let auth := takeUntil (fun c => c = '/' ∨ c = '?') rest
      match parseHostPort (takeUntil (fun c => c = ':') auth.1) with
      | none => none
      | some (hostCs, port0) =>
        match parsePathQuery auth.2 with
        | none => none
        | some pq =>
          some ⟨⟨asciiLowerList schemeCs⟩, ⟨asciiLowerList hostCs⟩,
                (match port0 with
                 | some p =>
                     if defaultPort ⟨asciiLowerList schemeCs⟩ = some p then none else some p
                 | none => none),
                ⟨pq.1⟩, pq.2.map (fun q => ⟨q⟩)⟩

/-- `url::Url::to_string` (the serialization hides default ports because the
parser already did). -/
def urlToString (u : Url) : String :=
  u.scheme ++ "://" ++ u.host ++
  (match u.port with | some p => ":" ++ (⟨natDigits p⟩ : String) | none => "") ++
  u.path ++ (match u.query with | some q => "?" ++ q | none => "")

/-- The request target (axum `http::Uri`, origin form): path and query. -/
structure Uri where
  path : String
  query : Option String
deriving DecidableEq, Repr

/-- `Uri`'s display form, `path?query`. -/
def uriToString (u : Uri) : String :=
  u.path ++ (match u.query with | some q => "?" ++ q | none => "")

/-! ## DPoP core (`rs/src/services/auth/dpop/core.rs`) -/

/-- `normalize_htu`: parse; on success rebuild from lowercased scheme and
host, the port unless it is the scheme's default, and the verbatim path and
query; on parse failure return the input unchanged. -/
def normalize_htu (htu : String) : String :=
  match urlParse htu with
  | some url =>
    let scheme := asciiLowerStr url.scheme
    let host := asciiLowerStr url.host
    let port := match url.port with
      | some p => if (scheme = "http" ∧ p = 80) ∨ (scheme = "https" ∧ p = 443) then none else some p
      | none => none
    scheme ++ "://" ++ host ++
    (match port with | some p => ":" ++ (⟨natDigits p⟩ : String) | none => "") ++
    url.path ++ (match url.query with | some q => "?" ++ q | none => "")
  | none => htu

/-- `build_htu_from_base`: parse the configured base URL, overwrite its path
and query with the request target's, and serialize.  `Url::set_path` runs
the same WHATWG path parser, so the request path's dot segments collapse
here too.  `none` models the `Err(url::ParseError)` return. -/
def build_htu_from_base (base : String) (uri : Uri) : Option String :=
  (urlParse base).map (fun url =>
    urlToString { url with path := normalizePathStr uri.path, query := uri.query })

/-- `build_htu_from_forwarded`: scheme from `X-Forwarded-Proto` (default
`http`), host from `X-Forwarded-Host` falling back to `Host` (default
`localhost`), then the request target. -/
def build_htu_from_forwarded (headers : HeaderMap) (uri : Uri) : String :=
  let scheme := (headerGet headers "x-forwarded-proto").getD "http"
  let host := (headerGet headers "x-forwarded-host").getD ((headerGet headers "host").getD "localhost")
  scheme ++ "://" ++ host ++ uriToString uri

/-- `build_expected_htu`: prefer the configured public base URL; if it is
absent, or fails to parse, reconstruct from the forwarded headers. -/
def build_expected_htu (headers : HeaderMap) (uri : Uri) (public_base_url : Option String) : String :=
  match public_base_url with
  | some base =>
    match build_htu_from_base base uri with
    | some u => u
    | none => build_htu_from_forwarded headers uri
  | none => build_htu_from_forwarded headers uri

/-- `jsonwebtoken::Algorithm`, as far as the verifier distinguishes it. -/
inductive Alg
  | EdDSA
  | ES256
  | RS256
deriving DecidableEq, Repr

/-- `jsonwebtoken::jwk::EllipticCurve`. -/
inductive JwkCurve
  | Ed25519
  | P256
deriving DecidableEq, Repr

/-- `jsonwebtoken::jwk::AlgorithmParameters`, as far as the verifier
distinguishes it: an octet key pair carrying its curve and `x` member, or
any other key family. -/
inductive JwkParams
  | OctetKeyPair (curve : JwkCurve) (x : String)
  | OtherKey
deriving DecidableEq, Repr

/-- An embedded JWK (`jsonwebtoken::jwk::Jwk`). -/
structure Jwk where
  algorithm : JwkParams
deriving DecidableEq, Repr

/-- `DpopPolicy` from `core.rs`. -/
structure DpopPolicy where
  required : Bool
  iat_leeway_seconds : Int
  max_age_seconds : Int
  require_ath : Bool
  require_nonce : Bool
  replay_ttl_seconds : Nat
deriving Repr

/-- `VerifiedDpop` from `core.rs`. -/
structure VerifiedDpop where
  jti : String
  iat : Int
  htm : String
  htu : String
  nonce : Option String
deriving DecidableEq, Repr

/-- `DpopError` from `core.rs`. -/
inductive DpopError
  | MissingProof
  | InvalidJwt
  | MissingJwk
  | UnsupportedAlg (a : Alg)
  | InvalidTyp
  | MissingClaim (c : String)
  | MethodMismatch
  | UriMismatch
  | InvalidIat
  | AthMismatch
  | NonceRequired
  | JktMismatch
  | UnsupportedJwk
deriving DecidableEq, Repr

/-- The decoded JOSE header of a proof (`jsonwebtoken::Header`). -/
structure JoseHeader where
  typ : Option String
  alg : Alg
  jwk : Option Jwk
deriving DecidableEq, Repr

/-- The claim set of a DPoP proof (`DpopClaims` in `core.rs`). -/
structure DpopClaims where
  htm : Option String
  htu : Option String
  iat : Option Int
  jti : Option String
  ath : Option String
  nonce : Option String
deriving DecidableEq, Repr

/-- The `jsonwebtoken` crate operations the verifier calls, as an oracle:
`decodeHeader` is `decode_header` (JOSE header of the compact JWS, `none` on
a malformed token); `fromJwkOk` is whether `DecodingKey::from_jwk`
succeeds; `decodeVerify` is `decode::<DpopClaims>` with the key built from
the embedded JWK and `exp` validation disabled — `none` on any signature or
structural error. -/
structure JwtLib where
  decodeHeader : String → Option JoseHeader
  fromJwkOk : Jwk → Bool
  decodeVerify : String → Jwk → Option DpopClaims

/-- `compute_ath`: base64url-no-pad of the SHA-256 of the access token. -/
def compute_ath (access_token : String) : String :=
  b64urlNoPad (sha256 (strBytes access_token))

/-- `compute_jwk_thumbprint`: RFC 7638 thumbprint of the embedded OKP /
Ed25519 key — SHA-256 of the canonical JSON with members `crv, kty, x` in
lexicographic order and no whitespace, base64url-no-pad. -/
def compute_jwk_thumbprint (jwk : Jwk) : Except DpopError String :=
  match jwk.algorithm with
  | .OctetKeyPair .Ed25519 x =>
      .ok (b64urlNoPad (sha256 (strBytes
        ("\x7b\"crv\":\"Ed25519\",\"kty\":\"OKP\",\"x\":\"" ++ x ++ "\"\x7d"))))
  | .OctetKeyPair _ _ => .error .UnsupportedJwk
  | .OtherKey => .error .UnsupportedJwk

/-- The two `iat` window checks of `verify_proof` (core.rs lines 206-218):
reject a proof issued after `now + leeway` or older than
`max_age + leeway`. -/
def check_iat_window (policy : DpopPolicy) (now iat : Int) : Except DpopError Unit :=
  if iat > now + policy.iat_leeway_seconds then .error .InvalidIat
  else if now - iat > policy.max_age_seconds + policy.iat_leeway_seconds then .error .InvalidIat
  else .ok ()

/-- The `cnf.jkt` binding check of `verify_proof` (when an expected
thumbprint was extracted from the access token, the embedded JWK's RFC 7638
thumbprint must equal it). -/
def check_jkt (expected_jkt : Option String) (jwk : Jwk) : Except DpopError Unit :=
  match expected_jkt with
  | some expected =>
    match compute_jwk_thumbprint jwk with
    | .error e => .error e
    | .ok actual => if actual ≠ expected then .error .JktMismatch else .ok ()
  | none => .ok ()

/-- The `ath` check of `verify_proof` (core.rs lines 220-231): when the
policy requires it, the bearer token and the `ath` claim must both be
present and `ath` must equal `compute_ath(bearer)`. -/
def check_ath (require_ath : Bool) (access_token : Option String) (ath : Option String) :
    Except DpopError Unit :=
  if require_ath then
    match access_token with
    | none => .error (.MissingClaim "ath")
    | some access =>
      match ath with
      | none => .error (.MissingClaim "ath")
      | some a => if a ≠ compute_ath access then .error .AthMismatch else .ok ()
  else .ok ()

/-- `verify_proof` from `core.rs`; `now` is the `chrono::Utc::now()` sample
taken at the iat check. -/
def verify_proof (lib : JwtLib) (policy : DpopPolicy) (headers : HeaderMap)
    (method : String) (uri : Uri) (access_token : Option String)
    (expected_jkt : Option String) (public_base_url : Option String)
    (now : Int) : Except DpopError (Option VerifiedDpop) :=
  if ¬ policy.required then .ok none
  else
    match headerGet headers "DPoP" with
    | none => .error .MissingProof
    | some proof =>
      match lib.decodeHeader proof with
      | none => .error .InvalidJwt
      | some header =>
        match header.typ with
        | some typ =>
          if ¬ eqIgnoreAsciiCase typ "dpop+jwt" then .error .InvalidTyp
          else if header.alg ≠ .EdDSA then .error (.UnsupportedAlg header.alg)
          else
            match header.jwk with
            | none => .error .MissingJwk
            | some jwk =>
              if ¬ lib.fromJwkOk jwk then .error .InvalidJwt
              else
                match check_jkt expected_jkt jwk with
                | .error e => .error e
                | .ok () =>
                  match lib.decodeVerify proof jwk with
                  | none => .error .InvalidJwt
                  | some claims =>
                    match claims.htm with
                    | none => .error (.MissingClaim "htm")
                    | some htm =>
                      match claims.htu with
                      | none => .error (.MissingClaim "htu")
                      | some htu =>
                        match claims.iat with
                        | none => .error (.MissingClaim "iat")
                        | some iat =>
                          match claims.jti with
                          | none => .error (.MissingClaim "jti")
                          | some jti =>
                            if ¬ eqIgnoreAsciiCase htm method then .error .MethodMismatch
                            else if normalize_htu htu ≠ normalize_htu (build_expected_htu headers uri public_base_url) then .error .UriMismatch
                              else
                                match check_iat_window policy now iat with
                                | .error e => .error e
                                | .ok () =>
                                  match check_ath policy.require_ath access_token claims.ath with
                                  | .error e => .error e
                                  | .ok () =>
                                    if policy.require_nonce ∧ claims.nonce = none then .error .NonceRequired
                                    else .ok (some ⟨jti, iat, htm, htu, claims.nonce⟩)
        | none => .error .InvalidTyp

/-! ## Protected-request middleware (`rs/src/middleware/auth/access.rs`) -/

/-- What `AuthService::verify_verified` hands to the middleware: the access
token's subject and its `cnf.jkt` binding (the other verified fields play no
role in the middleware and are elided). -/
structure VerifiedAccessToken where
  user_id : String
  cnf_jkt : Option String
deriving DecidableEq, Repr

/-- `ReplayStore::check_and_store`'s outcome: `Stored` is `Ok(true)` (first
time, key set with TTL), `AlreadyPresent` is `Ok(false)` (replay), and
`BackendError` is `Err(_)` (transport failure). -/
inductive ReplayResult
  | Stored
  | AlreadyPresent
  | BackendError
deriving DecidableEq, Repr

/-- The observable outcome of the middleware: whether the request reached
the inner handler, and the replay-store calls made (key and TTL), in
order. -/
structure MiddlewareResult where
  admitted : Bool
  replayCalls : List (String × Nat)
deriving DecidableEq, Repr

/-- The `Authorization: Bearer <token>` extraction at the top of
`access_middleware` (`strip_prefix("Bearer ")`). -/
def bearerToken (headers : HeaderMap) : Option String :=
  match headerGet headers "authorization" with
  | none => none
  | some auth =>
    match auth.data with
    | 'B' :: 'e' :: 'a' :: 'r' :: 'e' :: 'r' :: ' ' :: rest => some ⟨rest⟩
    | _ => none

/-- The replay key the middleware builds: `format!("dpop:{}:{}", user_id, jti)`. -/
def dpopReplayKey (user_id jti : String) : String :=
  "dpop:" ++ user_id ++ ":" ++ jti

/-- `access_middleware`: verify the access token, verify the DPoP proof,
then — only when a proof was verified — claim `(subject, jti)` in the
replay store, admitting the request iff the store answers `Stored`.  The
access verifier and the replay store are oracles (`verifyAccess`,
`replay`); every rejection is the single external 401. -/
def access_middleware (lib : JwtLib) (verifyAccess : String → Option VerifiedAccessToken)
    (replay : String → Nat → ReplayResult) (policy : DpopPolicy)
    (public_base_url : Option String) (headers : HeaderMap) (method : String)
    (uri : Uri) (now : Int) : MiddlewareResult :=
  match bearerToken headers with
  | none => ⟨false, []⟩
  | some token =>
    match verifyAccess token with
    | none => ⟨false, []⟩
    | some claims =>
      match verify_proof lib policy headers method uri (some token) claims.cnf_jkt public_base_url now with
      | .error _ => ⟨false, []⟩
      | .ok none => ⟨true, []⟩
      | .ok (some dpop) =>
        let key := dpopReplayKey claims.user_id dpop.jti
        let ttl := policy.replay_ttl_seconds
        match replay key ttl with
        | .Stored => ⟨true, [(key, ttl)]⟩
        | .AlreadyPresent => ⟨false, [(key, ttl)]⟩
        | .BackendError => ⟨false, [(key, ttl)]⟩

/-! ## Authorization server: errors (`auth/src/error.rs`) -/

/-- `AppError`. -/
inductive AppError
  | InvalidRequest (msg : String)
  | Unauthorized
  | Forbidden
  | NotFound
  | Conflict
  | Internal
deriving DecidableEq, Repr

/-- The HTTP status `AppError::into_response` maps each variant to. -/
def statusCode : AppError → Nat
  | .InvalidRequest _ => 400
  | .Unauthorized => 401
  | .Forbidden => 403
  | .NotFound => 404
  | .Conflict => 409
  | .Internal => 500

/-! ## Session repository (`auth/src/repos/auth_session_repo.rs`)

The `auth_sessions` table is a list of rows; row ids (UUIDs generated by
the database) are embedded as a counter.  Timestamps are unix seconds.
`fetch_optional` of a `LIMIT`-less single-row query becomes `List.find?`;
an `UPDATE ... WHERE` becomes a map over the rows plus the affected
count. -/

/-- `AuthSessionRow`. -/
structure AuthSessionRow where
  id : Nat
  user_id : String
  dpop_jkt : Option String
  created_at : Int
  last_used_at : Option Int
  revoked_at : Option Int
deriving DecidableEq, Repr

/-- The `auth_sessions` table with its id generator. -/
structure SessionStore where
  rows : List AuthSessionRow
  nextId : Nat
deriving DecidableEq, Repr

/-- `AuthSessionRepo::create`: insert a session with the given subject and
thumbprint, returning the new row. -/
def AuthSessionRepo.create (st : SessionStore) (user_id : String)
    (dpop_jkt : Option String) (now : Int) : AuthSessionRow × SessionStore :=
  let row : AuthSessionRow := ⟨st.nextId, user_id, dpop_jkt, now, none, none⟩
  (row, ⟨row :: st.rows, st.nextId + 1⟩)

/-- `AuthSessionRepo::get_active_by_id`: the session with this id if it is
not revoked. -/
def AuthSessionRepo.get_active_by_id (st : SessionStore) (id : Nat) : Option AuthSessionRow :=
  st.rows.find? (fun r => r.id = id ∧ r.revoked_at = none)

/-- `AuthSessionRepo::lookup_refresh_context`: subject and thumbprint of an
active session. -/
def AuthSessionRepo.lookup_refresh_context (st : SessionStore) (session_id : Nat) :
    Option (String × Option String) :=
  (st.rows.find? (fun r => r.id = session_id ∧ r.revoked_at = none)).map
    (fun r => (r.user_id, r.dpop_jkt))

/-- `AuthSessionRepo::touch_last_used`: set `last_used_at` on the active
session with this id; returns the affected row count. -/
def AuthSessionRepo.touch_last_used (st : SessionStore) (id : Nat) (now : Int) :
    Nat × SessionStore :=
  ((st.rows.filter (fun r => r.id = id ∧ r.revoked_at = none)).length,
   ⟨st.rows.map (fun r =>
      if r.id = id ∧ r.revoked_at = none then { r with last_used_at := some now } else r),
    st.nextId⟩)

/-- `AuthSessionRepo::set_dpop_jkt`: `UPDATE auth_sessions SET dpop_jkt = $2
WHERE id = $1 AND revoked_at IS NULL` — overwrite the binding of the active
session with this id. -/
def AuthSessionRepo.set_dpop_jkt (st : SessionStore) (id : Nat) (dpop_jkt : String) :
    Nat × SessionStore :=
  ((st.rows.filter (fun r => r.id = id ∧ r.revoked_at = none)).length,
   ⟨st.rows.map (fun r =>
      if r.id = id ∧ r.revoked_at = none then { r with dpop_jkt := some dpop_jkt } else r),
    st.nextId⟩)

/-- `AuthSessionRepo::revoke`: set `revoked_at` on the active session with
this id. -/
def AuthSessionRepo.revoke (st : SessionStore) (id : Nat) (revoked_at : Int) :
    Nat × SessionStore :=
  ((st.rows.filter (fun r => r.id = id ∧ r.revoked_at = none)).length,
   ⟨st.rows.map (fun r =>
      if r.id = id ∧ r.revoked_at = none then { r with revoked_at := some revoked_at } else r),
    st.nextId⟩)

/-! ## Refresh tokens (`auth/src/repos/refresh_token_repo.rs`,
`auth/src/services/auth/refresh_token_issuer.rs`) -/

/-- `RefreshTokenRow`. -/
structure RefreshTokenRow where
  id : Nat
  session_id : Nat
  token_hash : List Nat
  issued_at : Int
  expires_at : Int
  used_at : Option Int
  revoked_at : Option Int
  replaced_by : Option Nat
deriving DecidableEq, Repr

/-- The `refresh_tokens` table with its id generator. -/
structure RefreshTokenStore where
  rows : List RefreshTokenRow
  nextId : Nat
deriving DecidableEq, Repr

/-- `RefreshTokenRepo::insert` (`issued_at` comes from the database's
`now()` default, passed here explicitly). -/
def RefreshTokenRepo.insert (st : RefreshTokenStore) (session_id : Nat)
    (token_hash : List Nat) (expires_at now : Int) : Nat × RefreshTokenStore :=
  (st.nextId, ⟨⟨st.nextId, session_id, token_hash, now, expires_at, none, none, none⟩ :: st.rows,
   st.nextId + 1⟩)

/-- `RefreshTokenRepo::find_active_by_hash`: a row with this hash that is
not revoked and not expired. -/
def RefreshTokenRepo.find_active_by_hash (st : RefreshTokenStore) (token_hash : List Nat)
    (now : Int) : Option RefreshTokenRow :=
  st.rows.find? (fun r => r.token_hash = token_hash ∧ r.revoked_at = none ∧ r.expires_at > now)

/-- `hash_refresh_token`: raw SHA-256 bytes of the opaque token string. -/
def hash_refresh_token (token : String) : List Nat := sha256 (strBytes token)

/-- `RefreshTokenService::issue_refresh_token`.  The 32 random bytes of
`generate_refresh_token` are an input (`fresh_token`, already base64url
encoded). -/
def issue_refresh_token (st : RefreshTokenStore) (session_id : Nat) (fresh_token : String)
    (now : Int) (ttl_seconds : Nat) : String × RefreshTokenStore :=
  let token_hash := hash_refresh_token fresh_token
  let expires_at := now + (ttl_seconds : Int)
  let r := RefreshTokenRepo.insert st session_id token_hash expires_at now
  (fresh_token, r.2)

/-- `ValidatedRefreshToken`. -/
structure ValidatedRefreshToken where
  user_id : String
  session_id : Nat
  jkt : Option String
deriving DecidableEq, Repr

/-- `RefreshTokenService::validate_refresh_token`: look up an active row by
the presented token's hash, then resolve subject and thumbprint from the
active session; `none` on either miss. -/
def validate_refresh_token (rst : RefreshTokenStore) (sst : SessionStore)
    (refresh_token : String) (now : Int) : Option ValidatedRefreshToken :=
  match RefreshTokenRepo.find_active_by_hash rst (hash_refresh_token refresh_token) now with
  | none => none
  | some row =>
    match AuthSessionRepo.lookup_refresh_context sst row.session_id with
    | none => none
    | some uj => some ⟨uj.1, row.session_id, uj.2⟩

/-! ## Access token issuance (`auth/src/services/auth/token_issuer.rs`) -/

/-- `cnf` member of an access token. -/
structure CnfClaim where
  jkt : String
deriving DecidableEq, Repr

/-- `AccessTokenClaims` as assembled by `issue_access_token`. -/
structure AccessTokenClaims where
  iss : String
  aud : String
  sub : String
  exp : Int
  jti : String
  cnf : Option CnfClaim
deriving DecidableEq, Repr

/-- Issuer configuration (`JwtIssuer`: issuer, audience, access TTL; the
Ed25519 signing key is abstracted — an access token is embedded as the
claim set the JWS signs over). -/
structure JwtConfig where
  issuer : String
  audience : String
  ttl_seconds : Nat
deriving DecidableEq, Repr

/-- Hex digit? -/
def isHexChar (c : Char) : Bool :=
  isDig c ∨ (97 ≤ c.toNat ∧ c.toNat ≤ 102) ∨ (65 ≤ c.toNat ∧ c.toNat ≤ 70)

/-- `Uuid::parse_str` success, on the canonical hyphenated form. -/
def isUuidString (s : String) : Bool :=
  s.data.length = 36 ∧
  (List.range 36).all (fun i =>
    if i = 8 ∨ i = 13 ∨ i = 18 ∨ i = 23 then s.data.getD i ' ' = '-'
    else isHexChar (s.data.getD i ' '))

/-- `AuthService::issue_access_token` (token_issuer.rs): validate the
subject, then assemble the claim set — `cnf = { jkt }` iff a thumbprint was
supplied.  `now` is the `chrono` sample and `fresh_jti` the generated
UUID. -/
def issue_access_token (cfg : JwtConfig) (sub : String) (jkt : Option String)
    (now : Int) (fresh_jti : String) : Except AppError AccessTokenClaims :=
  if ¬ isUuidString sub then .error (.InvalidRequest "sub must be a UUID string")
  else .ok ⟨cfg.issuer, cfg.audience, sub, now + (cfg.ttl_seconds : Int), fresh_jti,
            jkt.map (fun j => ⟨j⟩)⟩

/-! ## Token service (`auth/src/services/auth/token_service.rs`) -/

/-- `IssuedTokenPair` (the access token as its claim set). -/
structure IssuedTokenPair where
  access_token : AccessTokenClaims
  refresh_token : String
  token_type : String
  expires_in : Nat
  session_id : Nat
deriving DecidableEq, Repr

/-- Both persistent stores of the authorization server. -/
structure AuthDb where
  sessions : SessionStore
  refresh : RefreshTokenStore
deriving DecidableEq, Repr

/-- `TokenService::issue_token_pair`: create a session — the repository is
called with `None` for the thumbprint — then mint the access token (with
`cnf` from the `jkt` argument) and persist a refresh token bound to the new
session. -/
def TokenService.issue_token_pair (cfg : JwtConfig) (refresh_ttl : Nat) (db : AuthDb)
    (sub : String) (jkt : Option String) (now : Int) (fresh_jti fresh_refresh : String) :
    Except AppError (IssuedTokenPair × AuthDb) :=
  let c := AuthSessionRepo.create db.sessions sub none now
  match issue_access_token cfg sub jkt now fresh_jti with
  | .error e => .error e
  | .ok access =>
    let r := issue_refresh_token db.refresh c.1.id fresh_refresh now refresh_ttl
    .ok (⟨access, r.1, "Bearer", cfg.ttl_seconds, c.1.id⟩, ⟨c.2, r.2⟩)

/-- `TokenService::refresh`: validate the presented token, mint a new
access token for the resolved subject with the session's thumbprint, and
return the same refresh token string. -/
def TokenService.refresh (cfg : JwtConfig) (db : AuthDb) (refresh_token : String)
    (now : Int) (fresh_jti : String) : Except AppError IssuedTokenPair :=
  match validate_refresh_token db.refresh db.sessions refresh_token now with
  | none => .error .Unauthorized
  | some v =>
    match issue_access_token cfg v.user_id v.jkt now fresh_jti with
    | .error e => .error e
    | .ok access => .ok ⟨access, refresh_token, "Bearer", cfg.ttl_seconds, v.session_id⟩

/-! ## Token endpoint handler (`auth/src/api/v1/handlers/token.rs`) -/

/-- `TokenRequest` (all fields optional; the subject UUID as its string
form). -/
structure TokenRequest where
  grant_type : Option String
  sub : Option String
  jkt : Option String
  refresh_token : Option String
deriving DecidableEq, Repr

/-- `TokenResponse`. -/
structure TokenResponse where
  access_token : AccessTokenClaims
  token_type : String
  expires_in : Nat
  refresh_token : String
  session_id : Option Nat
deriving DecidableEq, Repr

/-- The `token` handler: branch on `grant_type`; a missing `refresh_token`
on the refresh branch and a missing `sub` on the issue branch are mapped to
`AppError::Internal` by the code.  The two service calls are oracles. -/
def token (issue : String → Option String → Except AppError IssuedTokenPair)
    (refreshGrant : String → Except AppError IssuedTokenPair)
    (req : TokenRequest) : Except AppError (Nat × TokenResponse) :=
  if req.grant_type = some "refresh_token" then
    match req.refresh_token with
    | none => .error .Internal
    | some rt =>
      match refreshGrant rt with
      | .error e => .error e
      | .ok out => .ok (200, ⟨out.access_token, "Bearer", out.expires_in, out.refresh_token, some out.session_id⟩)
  else
    match req.sub with
    | none => .error .Internal
    | some sub =>
      match issue sub req.jkt with
      | .error e => .error e
      | .ok out => .ok (200, ⟨out.access_token, "Bearer", out.expires_in, out.refresh_token, some out.session_id⟩)

/-- The HTTP status of a handler outcome, via `AppError::into_response`. -/
def responseStatus : Except AppError (Nat × TokenResponse) → Nat
  | .ok s => s.1
  | .error e => statusCode e

/-! ## Fixtures and spec-side constructors used by theorems below -/

/-! ## Happy-path fixtures used by witnesses and counterexamples -/

/-- A concrete embedded OKP/Ed25519 JWK. -/
def fixJwk : Jwk := ⟨.OctetKeyPair .Ed25519 "fix-x"⟩

/-- A well-formed DPoP JOSE header embedding `fixJwk`. -/
def fixJoseHeader : JoseHeader := ⟨some "dpop+jwt", .EdDSA, some fixJwk⟩

/-- A well-formed claim set for `GET https://api.example.com/r` at time
1000, with a chosen `ath`. -/
def fixClaims (ath : Option String) : DpopClaims :=
  ⟨some "GET", some "https://api.example.com/r", some 1000, some "jti-1", ath, none⟩

/-- A `jsonwebtoken` oracle on which the compact JWS `"proof-1"` decodes to
`fixJoseHeader` and verifies (under `fixJwk`) to the given claims. -/
def fixLib (claims : DpopClaims) : JwtLib :=
  ⟨fun s => if s = "proof-1" then some fixJoseHeader else none,
   fun _ => true,
   fun s k => if s = "proof-1" ∧ k = fixJwk then some claims else none⟩

/-- A policy requiring DPoP with 60 s leeway, 300 s max age, no `ath` and
no nonce requirement. -/
def fixPolicy : DpopPolicy := ⟨true, 60, 300, false, false, 300⟩

/-- The access-token verifier oracle of the happy-path fixture: bearer
token `"tok-1"` belongs to `"user-1"` with no `cnf.jkt`. -/
def fixVa : String → Option VerifiedAccessToken :=
  fun t => if t = "tok-1" then some ⟨"user-1", none⟩ else none

/-- Headers of the happy-path protected request. -/
def fixHeadersAuth : HeaderMap := [("authorization", "Bearer tok-1"), ("dpop", "proof-1")]

/-- The authorization-server state of the refresh witness: one active
session (id 5, bound thumbprint `"T"`) and one live refresh row whose hash
is that of the opaque token `"rt-1"`. -/
def fixDbRefresh : AuthDb :=
  ⟨⟨[⟨5, "11111111-1111-1111-1111-111111111111", some "T", 0, none, none⟩], 6⟩,
   ⟨[⟨1, 5, hash_refresh_token "rt-1", 0, 100, none, none, none⟩], 2⟩⟩

/-- The characters a port contributes to a URL string. -/
def portChars : Option Nat → List Char
  | none => []
  | some p => ':' :: natDigits p

/-- The characters a query contributes to a URL string. -/
def queryChars : Option (List Char) → List Char
  | none => []
  | some q => '?' :: q

/-- Assemble an absolute URL string from its components. -/
def mkUrlStr (scheme host : List Char) (port : Option Nat) (path : List Char)
    (query : Option (List Char)) : String :=
  ⟨scheme ++ ':' :: '/' :: '/' :: (host ++ portChars port ++ path ++ queryChars query)⟩

/-! ## Shared facts about `verify_proof` -/

/-- Inversion of a successful `verify_proof` run: every check on the way to
acceptance passed. -/
theorem verify_proof_ok_elim
    (lib : JwtLib) (policy : DpopPolicy) (headers : HeaderMap) (method : String)
    (uri : Uri) (access : Option String) (jkt : Option String) (pub : Option String)
    (now : Int) (v : VerifiedDpop)
    (h : verify_proof lib policy headers method uri access jkt pub now = .ok (some v)) :
    policy.required = true ∧
    ∃ proof header jwk claims,
      headerGet headers "DPoP" = some proof ∧
      lib.decodeHeader proof = some header ∧
      (∃ typ, header.typ = some typ ∧ eqIgnoreAsciiCase typ "dpop+jwt" = true) ∧
      header.alg = Alg.EdDSA ∧
      header.jwk = some jwk ∧
      lib.fromJwkOk jwk = true ∧
      check_jkt jkt jwk = .ok () ∧
      lib.decodeVerify proof jwk = some claims ∧
      claims.htm = some v.htm ∧ claims.htu = some v.htu ∧
      claims.iat = some v.iat ∧ claims.jti = some v.jti ∧
      eqIgnoreAsciiCase v.htm method = true ∧
      normalize_htu v.htu = normalize_htu (build_expected_htu headers uri pub) ∧
      check_iat_window policy now v.iat = .ok () ∧
      check_ath policy.require_ath access claims.ath = .ok () ∧
      ¬(policy.require_nonce = true ∧ claims.nonce = none) ∧
      v.nonce = claims.nonce := by
  unfold verify_proof at h
  repeat' split at h
  all_goals simp only [Except.ok.injEq, Option.some.injEq, reduceCtorEq] at h
  rename_i hreq z1 proof hproof z2 header hheader z3 typ htyp htypeq halg z4 jwk hjwk hfrom
    z5 hjkt z6 claims hclaims z7 htm hhtm z8 htu hhtu z9 iat hiat z10 jti hjti hmeth huri
    z11 hwin z12 hath hnonce
  subst h
  exact ⟨by simpa using hreq, proof, header, jwk, claims, hproof, hheader,
    ⟨typ, htyp, by simpa using htypeq⟩, by simpa using halg, hjwk, by simpa using hfrom,
    by simpa using hjkt, hclaims, hhtm, hhtu, hiat, hjti, by simpa using hmeth,
    by simpa using huri, by simpa using hwin, by simpa using hath, hnonce, rfl⟩

/-- Forward evaluation of `verify_proof` once every check up to the iat
window is known to pass: the result is decided by the `ath` and nonce
checks. -/
theorem verify_proof_eval
    (lib : JwtLib) (policy : DpopPolicy) (headers : HeaderMap) (method : String)
    (uri : Uri) (access : Option String) (jkt : Option String) (pub : Option String)
    (now : Int) (proof typ htm htu jti : String) (iat : Int)
    (header : JoseHeader) (jwk : Jwk) (claims : DpopClaims)
    (hreq : policy.required = true)
    (hproof : headerGet headers "DPoP" = some proof)
    (hheader : lib.decodeHeader proof = some header)
    (htyp : header.typ = some typ) (htypeq : eqIgnoreAsciiCase typ "dpop+jwt" = true)
    (halg : header.alg = Alg.EdDSA)
    (hjwk : header.jwk = some jwk)
    (hfrom : lib.fromJwkOk jwk = true)
    (hjkt : check_jkt jkt jwk = .ok ())
    (hclaims : lib.decodeVerify proof jwk = some claims)
    (hhtm : claims.htm = some htm) (hhtu : claims.htu = some htu)
    (hiat : claims.iat = some iat) (hjti : claims.jti = some jti)
    (hmeth : eqIgnoreAsciiCase htm method = true)
    (huri : normalize_htu htu = normalize_htu (build_expected_htu headers uri pub))
    (hwin : check_iat_window policy now iat = .ok ()) :
    verify_proof lib policy headers method uri access jkt pub now =
      match check_ath policy.require_ath access claims.ath with
      | .error e => .error e
      | .ok () =>
        if policy.require_nonce ∧ claims.nonce = none then .error .NonceRequired
        else .ok (some ⟨jti, iat, htm, htu, claims.nonce⟩) := by
  unfold verify_proof
  simp only [hreq, hproof, hheader, htyp, htypeq, halg, hjwk, hfrom, hjkt, hclaims,
    hhtm, hhtu, hiat, hjti, hmeth, huri, hwin, not_true, Bool.not_eq_true,
    if_false, reduceIte, ne_eq, not_false_eq_true]

/-! ## C5 -/

/-- C5, counterexample: a request carrying the `DPoP` header twice is
accepted — `verify_proof` reads the first occurrence via `HeaderMap::get`
and never counts occurrences, contradicting the claim that more than one
occurrence is rejected as invalid. -/
theorem verify_proof_accepts_duplicate_dpop_headers :
    headerCount [("dpop", "proof-1"), ("dpop", "proof-2")] "DPoP" = 2 ∧
    verify_proof (fixLib (fixClaims none)) fixPolicy
        [("dpop", "proof-1"), ("dpop", "proof-2")] "GET" ⟨"/r", none⟩ none none
        (some "https://api.example.com") 1000
      = .ok (some ⟨"jti-1", 1000, "GET", "https://api.example.com/r", none⟩) :=
  ⟨by decide, by rfl⟩

/-- C5, amended: `verify_proof` depends on the request's headers only
through the FIRST `DPoP` occurrence (and the forwarded-host headers used
for URI reconstruction); it rejects with `MissingProof` exactly when no
`DPoP` header is present, and does not reject duplicated occurrences. -/
theorem verify_proof_reads_first_dpop_header (lib : JwtLib) (policy : DpopPolicy)
    (h1 h2 : HeaderMap) (method : String) (uri : Uri) (access jkt pub : Option String)
    (now : Int) :
    (headerGet h1 "DPoP" = headerGet h2 "DPoP" →
     headerGet h1 "x-forwarded-proto" = headerGet h2 "x-forwarded-proto" →
     headerGet h1 "x-forwarded-host" = headerGet h2 "x-forwarded-host" →
     headerGet h1 "host" = headerGet h2 "host" →
     verify_proof lib policy h1 method uri access jkt pub now =
       verify_proof lib policy h2 method uri access jkt pub now) ∧
    (policy.required = true → headerGet h1 "DPoP" = none →
     verify_proof lib policy h1 method uri access jkt pub now = .error .MissingProof) := by
  constructor
  · intro e1 e2 e3 e4
    have hfwd : build_htu_from_forwarded h1 uri = build_htu_from_forwarded h2 uri := by
      unfold build_htu_from_forwarded
      rw [e2, e3, e4]
    have hexp : build_expected_htu h1 uri pub = build_expected_htu h2 uri pub := by
      unfold build_expected_htu
      cases pub with
      | none => exact hfwd
      | some base => cases build_htu_from_base base uri <;> simp [hfwd]
    unfold verify_proof
    rw [e1, hexp]
  · intro hreq hnone
    unfold verify_proof
    rw [hnone]
    simp [hreq]

/-- C5 amended, witness: on the duplicated-header request of the
counterexample, the verifier behaves exactly as on the request carrying
only the first occurrence. -/
theorem verify_proof_reads_first_dpop_header_witness :
    verify_proof (fixLib (fixClaims none)) fixPolicy [("dpop", "proof-1"), ("dpop", "proof-2")]
        "GET" ⟨"/r", none⟩ none none (some "https://api.example.com") 1000 =
      verify_proof (fixLib (fixClaims none)) fixPolicy [("dpop", "proof-1")]
        "GET" ⟨"/r", none⟩ none none (some "https://api.example.com") 1000 :=
  (verify_proof_reads_first_dpop_header (fixLib (fixClaims none)) fixPolicy
    [("dpop", "proof-1"), ("dpop", "proof-2")] [("dpop", "proof-1")]
    "GET" ⟨"/r", none⟩ none none (some "https://api.example.com") 1000).1
    (by decide) (by decide) (by decide) (by decide)

/-! ## C6 -/

/-- C6: the iat window check (core.rs lines 206-218) rejects with
`InvalidIat` iff `iat > now + leeway` or `now - iat > max_age + leeway`;
at the boundaries, `iat = now + leeway` and age `= max_age + leeway` are
accepted while one second beyond each is rejected; and every proof
`verify_proof` accepts passed this window check at its `iat`. -/
theorem check_iat_window_iff (policy : DpopPolicy) (now iat : Int) :
    (check_iat_window policy now iat = .error .InvalidIat ↔
       iat > now + policy.iat_leeway_seconds ∨
       now - iat > policy.max_age_seconds + policy.iat_leeway_seconds) ∧
    (0 ≤ policy.iat_leeway_seconds → 0 ≤ policy.max_age_seconds →
       check_iat_window policy now (now + policy.iat_leeway_seconds) = .ok () ∧
       check_iat_window policy now (now + policy.iat_leeway_seconds + 1) = .error .InvalidIat ∧
       check_iat_window policy now (now - (policy.max_age_seconds + policy.iat_leeway_seconds)) = .ok () ∧
       check_iat_window policy now (now - (policy.max_age_seconds + policy.iat_leeway_seconds) - 1) = .error .InvalidIat) ∧
    (∀ (lib : JwtLib) (headers : HeaderMap) (method : String) (uri : Uri)
       (access jkt pub : Option String) (v : VerifiedDpop),
       verify_proof lib policy headers method uri access jkt pub now = .ok (some v) →
       check_iat_window policy now v.iat = .ok ()) := by
  refine ⟨?_, ?_, ?_⟩
  · unfold check_iat_window
    split_ifs with hf ho
    · simp only [true_iff]
      exact Or.inl hf
    · simp only [true_iff]
      exact Or.inr ho
    · simp only [reduceCtorEq, false_iff, not_or]
      omega
  · intro hl hm
    refine ⟨?_, ?_, ?_, ?_⟩ <;> unfold check_iat_window <;> split_ifs <;>
      first | rfl | (exfalso; omega)
  · intro lib headers method uri access jkt pub v h
    obtain ⟨-, p, hd, jw, cl, c1, c2, c3, c4, c5, c6, c7, c8, c9, c10, c11, c12, c13, c14,
      c15, c16, c17, c18⟩ := verify_proof_ok_elim lib policy headers method uri access jkt
        pub now v h
    exact c15

/-- C6, witness: with leeway 60 and max age 300 at `now = 1000`, iat 1060
is accepted, 1061 rejected, 640 accepted, 639 rejected. -/
theorem check_iat_window_iff_witness :
    check_iat_window ⟨true, 60, 300, false, false, 300⟩ 1000 1060 = .ok () ∧
    check_iat_window ⟨true, 60, 300, false, false, 300⟩ 1000 1061 = .error .InvalidIat ∧
    check_iat_window ⟨true, 60, 300, false, false, 300⟩ 1000 640 = .ok () ∧
    check_iat_window ⟨true, 60, 300, false, false, 300⟩ 1000 639 = .error .InvalidIat := by
  obtain ⟨a, b, c, d⟩ :=
    (check_iat_window_iff ⟨true, 60, 300, false, false, 300⟩ 1000 0).2.1 (by decide) (by decide)
  refine ⟨?_, ?_, ?_, ?_⟩
  · simpa using a
  · simpa using b
  · simpa using c
  · simpa using d

/-! ## C9 -/

/-- C9: the token endpoint maps a new-pair request without `sub`, and a
refresh request without `refresh_token`, to `AppError::Internal`, which
`into_response` renders as HTTP 500 — not the 400 BadRequest the
specification prescribes for malformed bodies (`InvalidRequest` is the
variant that renders as 400). -/
theorem token_missing_field_gives_internal_500 :
    ∀ (issue : String → Option String → Except AppError IssuedTokenPair)
      (refreshGrant : String → Except AppError IssuedTokenPair),
      token issue refreshGrant ⟨none, none, none, none⟩ = .error .Internal ∧
      responseStatus (token issue refreshGrant ⟨none, none, none, none⟩) = 500 ∧
      token issue refreshGrant ⟨some "refresh_token", none, none, none⟩ = .error .Internal ∧
      responseStatus (token issue refreshGrant ⟨some "refresh_token", none, none, none⟩) = 500 ∧
      statusCode (.InvalidRequest "missing field") = 400 := by
  intro issue refreshGrant
  exact ⟨rfl, rfl, rfl, rfl, rfl⟩

/-! ## C10 -/

/-- C10: when the configured public base URL does not parse, the expected
htu silently falls back to the header-derived reconstruction, so the
comparison depends on `X-Forwarded-Proto` / `X-Forwarded-Host` / `Host`;
concretely, with base `"not a url"` the expected htu follows an
attacker-supplied `X-Forwarded-Host`. -/
theorem build_expected_htu_misconfigured_base_falls_back :
    (∀ (headers : HeaderMap) (uri : Uri) (base : String),
       urlParse base = none →
       build_expected_htu headers uri (some base) = build_htu_from_forwarded headers uri) ∧
    urlParse "not a url" = none ∧
    build_expected_htu [("x-forwarded-host", "evil.example")] ⟨"/r", none⟩ (some "not a url")
      = "http://evil.example/r" ∧
    build_expected_htu [] ⟨"/r", none⟩ (some "not a url") = "http://localhost/r" ∧
    "http://evil.example/r" ≠ "http://localhost/r" := by
  refine ⟨?_, by decide, by decide, by decide, by decide⟩
  intro headers uri base hb
  simp [build_expected_htu, build_htu_from_base, hb]

/-- C10, witness: a concrete misconfigured base URL triggering the
fallback. -/
theorem build_expected_htu_misconfigured_base_falls_back_witness :
    build_expected_htu [("host", "h.example")] ⟨"/w", none⟩ (some "nope") =
      build_htu_from_forwarded [("host", "h.example")] ⟨"/w", none⟩ :=
  build_expected_htu_misconfigured_base_falls_back.1 [("host", "h.example")] ⟨"/w", none⟩
    "nope" (by decide)

/-! ## C1 -/

/-- C1, counterexample: issuing a pair for a subject WITH a bound-key
thumbprint creates a session whose `dpop_jkt` is null — `issue_token_pair`
passes `None` to `AuthSessionRepo::create` regardless of the supplied
thumbprint, contradicting the claim that the created session stores it. -/
theorem issue_token_pair_stores_null_thumbprint :
    ((TokenService.issue_token_pair ⟨"iss", "aud", 600⟩ 2592000 ⟨⟨[], 0⟩, ⟨[], 0⟩⟩
        "11111111-1111-1111-1111-111111111111" (some "THUMB") 0 "jti-0" "rt-0").toOption.map
      (fun r => AuthSessionRepo.get_active_by_id r.2.sessions r.1.session_id)) =
      some (some ⟨0, "11111111-1111-1111-1111-111111111111", none, 0, none, none⟩) ∧
    (none : Option String) ≠ some "THUMB" :=
  ⟨by rfl, by decide⟩

/-- C1, amended: the session `issue_token_pair` creates always has
`dpop_jkt = None`; the supplied thumbprint is carried only in the minted
access token's `cnf.jkt` claim. -/
theorem issue_token_pair_thumbprint_placement
    (cfg : JwtConfig) (refresh_ttl : Nat) (db : AuthDb) (sub : String) (jkt : Option String)
    (now : Int) (fresh_jti fresh_refresh : String) (pair : IssuedTokenPair) (db' : AuthDb)
    (h : TokenService.issue_token_pair cfg refresh_ttl db sub jkt now fresh_jti fresh_refresh
          = .ok (pair, db')) :
    pair.session_id = db.sessions.nextId ∧
    (∃ rest, db'.sessions.rows =
      (⟨db.sessions.nextId, sub, none, now, none, none⟩ : AuthSessionRow) :: rest) ∧
    pair.access_token.cnf = jkt.map (fun j => ⟨j⟩) ∧
    pair.access_token.sub = sub := by
  unfold TokenService.issue_token_pair at h
  split at h
  · exact absurd h (by simp)
  · rename_i access hacc
    unfold issue_access_token at hacc
    split at hacc
    · exact absurd hacc (by simp)
    · simp only [Except.ok.injEq] at hacc
      subst hacc
      simp only [Except.ok.injEq, Prod.mk.injEq] at h
      obtain ⟨hpair, hdb⟩ := h
      subst hpair
      subst hdb
      refine ⟨rfl, ⟨db.sessions.rows, ?_⟩, rfl, rfl⟩
      simp [AuthSessionRepo.create]

/-- C1 amended, witness: the concrete issuance of the counterexample,
showing where the thumbprint actually lands. -/
theorem issue_token_pair_thumbprint_placement_witness :
    (⟨⟨"iss", "aud", "11111111-1111-1111-1111-111111111111", 600, "jti-0", some ⟨"THUMB"⟩⟩,
       "rt-0", "Bearer", 600, 0⟩ : IssuedTokenPair).session_id =
      (⟨⟨[], 0⟩, ⟨[], 0⟩⟩ : AuthDb).sessions.nextId ∧
    (∃ rest,
      (⟨⟨[⟨0, "11111111-1111-1111-1111-111111111111", none, 0, none, none⟩], 1⟩,
        ⟨[⟨0, 0, hash_refresh_token "rt-0", 0, 2592000, none, none, none⟩], 1⟩⟩ : AuthDb).sessions.rows =
      (⟨(⟨⟨[], 0⟩, ⟨[], 0⟩⟩ : AuthDb).sessions.nextId, "11111111-1111-1111-1111-111111111111",
         none, 0, none, none⟩ : AuthSessionRow) :: rest) ∧
    (⟨⟨"iss", "aud", "11111111-1111-1111-1111-111111111111", 600, "jti-0", some ⟨"THUMB"⟩⟩,
       "rt-0", "Bearer", 600, 0⟩ : IssuedTokenPair).access_token.cnf =
      (some "THUMB").map (fun j => ⟨j⟩) ∧
    (⟨⟨"iss", "aud", "11111111-1111-1111-1111-111111111111", 600, "jti-0", some ⟨"THUMB"⟩⟩,
       "rt-0", "Bearer", 600, 0⟩ : IssuedTokenPair).access_token.sub =
      "11111111-1111-1111-1111-111111111111" :=
  issue_token_pair_thumbprint_placement ⟨"iss", "aud", 600⟩ 2592000 ⟨⟨[], 0⟩, ⟨[], 0⟩⟩
    "11111111-1111-1111-1111-111111111111" (some "THUMB") 0 "jti-0" "rt-0"
    ⟨⟨"iss", "aud", "11111111-1111-1111-1111-111111111111", 600, "jti-0", some ⟨"THUMB"⟩⟩,
      "rt-0", "Bearer", 600, 0⟩
    ⟨⟨[⟨0, "11111111-1111-1111-1111-111111111111", none, 0, none, none⟩], 1⟩,
      ⟨[⟨0, 0, hash_refresh_token "rt-0", 0, 2592000, none, none, none⟩], 1⟩⟩
    (by rfl)

/-! ## C4 -/

/-- C4, counterexample: a session created with thumbprint `"A"` has it
overwritten to `"B"` by `set_dpop_jkt` — the `UPDATE` has no write-once
guard, contradicting the claim that a set thumbprint is never changed. -/
theorem set_dpop_jkt_overwrites :
    (AuthSessionRepo.create ⟨[], 0⟩ "u" (some "A") 0).1.dpop_jkt = some "A" ∧
    (AuthSessionRepo.set_dpop_jkt (AuthSessionRepo.create ⟨[], 0⟩ "u" (some "A") 0).2 0 "B").2.rows
      = [⟨0, "u", some "B", 0, none, none⟩] ∧
    (some "A" : Option String) ≠ some "B" :=
  ⟨by rfl, by rfl, by decide⟩

/-- C4, amended: among the session-store operations only `set_dpop_jkt`
writes `bound_key_thumbprint`, and it overwrites the value of the
non-revoked session with the given id unconditionally (no write-once
enforcement); revoked sessions are left untouched, and `create`,
`touch_last_used` and `revoke` never change any existing session's
thumbprint. -/
theorem dpop_jkt_mutability (st : SessionStore) (id : Nat) (j : String) :
    (∀ r, r ∈ st.rows → r.id = id → r.revoked_at = none →
       (⟨r.id, r.user_id, some j, r.created_at, r.last_used_at, r.revoked_at⟩ : AuthSessionRow)
         ∈ (AuthSessionRepo.set_dpop_jkt st id j).2.rows) ∧
    (∀ r, r ∈ st.rows → ¬(r.id = id ∧ r.revoked_at = none) →
       r ∈ (AuthSessionRepo.set_dpop_jkt st id j).2.rows) ∧
    (∀ now, ((AuthSessionRepo.touch_last_used st id now).2.rows).map AuthSessionRow.dpop_jkt
       = st.rows.map AuthSessionRow.dpop_jkt) ∧
    (∀ t, ((AuthSessionRepo.revoke st id t).2.rows).map AuthSessionRow.dpop_jkt
       = st.rows.map AuthSessionRow.dpop_jkt) ∧
    (∀ u k now, ((AuthSessionRepo.create st u k now).2.rows).map AuthSessionRow.dpop_jkt
       = k :: st.rows.map AuthSessionRow.dpop_jkt) := by
  refine ⟨?_, ?_, ?_, ?_, ?_⟩
  · intro r hr hid hrev
    have := List.mem_map_of_mem
      (fun r : AuthSessionRow =>
        if r.id = id ∧ r.revoked_at = none then { r with dpop_jkt := some j } else r) hr
    simpa [AuthSessionRepo.set_dpop_jkt, hid, hrev] using this
  · intro r hr hnot
    have := List.mem_map_of_mem
      (fun r : AuthSessionRow =>
        if r.id = id ∧ r.revoked_at = none then { r with dpop_jkt := some j } else r) hr
    simpa [AuthSessionRepo.set_dpop_jkt, hnot] using this
  · intro now
    simp only [AuthSessionRepo.touch_last_used, List.map_map]
    apply List.map_congr_left
    intro r hr
    by_cases hc : r.id = id ∧ r.revoked_at = none <;> simp [hc]
  · intro t
    simp only [AuthSessionRepo.revoke, List.map_map]
    apply List.map_congr_left
    intro r hr
    by_cases hc : r.id = id ∧ r.revoked_at = none <;> simp [hc]
  · intro u k now
    simp [AuthSessionRepo.create]

/-- C4 amended, witness: the overwrite of the counterexample obtained
through the amended theorem. -/
theorem dpop_jkt_mutability_witness :
    (⟨0, "u", some "B", 0, none, none⟩ : AuthSessionRow) ∈
      (AuthSessionRepo.set_dpop_jkt ⟨[⟨0, "u", some "A", 0, none, none⟩], 1⟩ 0 "B").2.rows :=
  (dpop_jkt_mutability ⟨[⟨0, "u", some "A", 0, none, none⟩], 1⟩ 0 "B").1
    ⟨0, "u", some "A", 0, none, none⟩ (by simp) (by decide) (by decide)

/-! ## C2 -/

/-- C2: on the protected path the middleware calls `check_and_store`
exactly once, with key `"dpop:" ++ subject ++ ":" ++ jti` and the policy's
replay TTL, whenever the DPoP proof verifies — admitting the request iff
the store answers `Stored` (an `AlreadyPresent` and a backend error both
reject, fail-closed); when the proof fails any earlier DPoP check the
store is never called; and any call to the store implies the proof had
fully verified. -/
theorem access_middleware_replay_contract (lib : JwtLib)
    (verifyAccess : String → Option VerifiedAccessToken)
    (replay : String → Nat → ReplayResult) (policy : DpopPolicy)
    (pub : Option String) (headers : HeaderMap) (method : String) (uri : Uri) (now : Int) :
    (∀ token claims dpop,
       bearerToken headers = some token →
       verifyAccess token = some claims →
       verify_proof lib policy headers method uri (some token) claims.cnf_jkt pub now
         = .ok (some dpop) →
       (access_middleware lib verifyAccess replay policy pub headers method uri now).replayCalls
         = [(dpopReplayKey claims.user_id dpop.jti, policy.replay_ttl_seconds)] ∧
       ((access_middleware lib verifyAccess replay policy pub headers method uri now).admitted = true ↔
         replay (dpopReplayKey claims.user_id dpop.jti) policy.replay_ttl_seconds = .Stored)) ∧
    (∀ token claims e,
       bearerToken headers = some token →
       verifyAccess token = some claims →
       verify_proof lib policy headers method uri (some token) claims.cnf_jkt pub now = .error e →
       access_middleware lib verifyAccess replay policy pub headers method uri now = ⟨false, []⟩) ∧
    ((access_middleware lib verifyAccess replay policy pub headers method uri now).replayCalls = []
     ∨ ∃ token claims dpop,
         bearerToken headers = some token ∧ verifyAccess token = some claims ∧
         verify_proof lib policy headers method uri (some token) claims.cnf_jkt pub now
           = .ok (some dpop) ∧
         (access_middleware lib verifyAccess replay policy pub headers method uri now).replayCalls
           = [(dpopReplayKey claims.user_id dpop.jti, policy.replay_ttl_seconds)]) := by
  refine ⟨?_, ?_, ?_⟩
  · intro token claims dpop ht hc hv
    simp only [access_middleware, ht, hc, hv]
    cases hrep : replay (dpopReplayKey claims.user_id dpop.jti) policy.replay_ttl_seconds <;>
      simp [hrep]
  · intro token claims e ht hc hv
    simp only [access_middleware, ht, hc, hv]
  · cases hbt : bearerToken headers with
    | none => exact Or.inl (by simp [access_middleware, hbt])
    | some token =>
      cases hc : verifyAccess token with
      | none => exact Or.inl (by simp [access_middleware, hbt, hc])
      | some claims =>
        cases hv : verify_proof lib policy headers method uri (some token) claims.cnf_jkt pub now with
        | error e => exact Or.inl (by simp [access_middleware, hbt, hc, hv])
        | ok vo =>
          cases vo with
          | none => exact Or.inl (by simp [access_middleware, hbt, hc, hv])
          | some dpop =>
            refine Or.inr ⟨token, claims, dpop, rfl, hc, hv, ?_⟩
            simp only [access_middleware, hbt, hc, hv]
            cases hrep : replay (dpopReplayKey claims.user_id dpop.jti) policy.replay_ttl_seconds <;>
              simp [hrep]

/-- C2, witness: on a fully verifying request the middleware calls the
store exactly once with key `dpop:user-1:jti-1` and TTL 300, and admits
because the store answers `Stored`. -/
theorem access_middleware_replay_contract_witness :
    (access_middleware (fixLib (fixClaims none)) fixVa (fun _ _ => .Stored) fixPolicy
        (some "https://api.example.com") fixHeadersAuth "GET" ⟨"/r", none⟩ 1000).replayCalls
      = [("dpop:user-1:jti-1", 300)] ∧
    ((access_middleware (fixLib (fixClaims none)) fixVa (fun _ _ => .Stored) fixPolicy
        (some "https://api.example.com") fixHeadersAuth "GET" ⟨"/r", none⟩ 1000).admitted = true ↔
      ReplayResult.Stored = ReplayResult.Stored) :=
  (access_middleware_replay_contract (fixLib (fixClaims none)) fixVa (fun _ _ => .Stored)
    fixPolicy (some "https://api.example.com") fixHeadersAuth "GET" ⟨"/r", none⟩ 1000).1
    "tok-1" ⟨"user-1", none⟩ ⟨"jti-1", 1000, "GET", "https://api.example.com/r", none⟩
    (by rfl) (by rfl) (by rfl)

/-! ## C3 -/

/-- C3: a successful `refresh` returns the presented refresh token string
unchanged, and the new access token is minted for the subject of the
active session found through the token-hash lookup, with `cnf.jkt` equal
to that session's `dpop_jkt` (absent when the session has none). -/
theorem refresh_inherits_session_binding
    (cfg : JwtConfig) (db : AuthDb) (rt : String) (now : Int) (fresh_jti : String)
    (out : IssuedTokenPair)
    (h : TokenService.refresh cfg db rt now fresh_jti = .ok out) :
    out.refresh_token = rt ∧
    ∃ row sess_user sess_jkt,
      RefreshTokenRepo.find_active_by_hash db.refresh (hash_refresh_token rt) now = some row ∧
      AuthSessionRepo.lookup_refresh_context db.sessions row.session_id
        = some (sess_user, sess_jkt) ∧
      out.access_token.sub = sess_user ∧
      out.access_token.cnf = sess_jkt.map (fun j => ⟨j⟩) ∧
      out.session_id = row.session_id := by
  unfold TokenService.refresh at h
  split at h
  · exact absurd h (by simp)
  · rename_i v hv
    split at h
    · exact absurd h (by simp)
    · rename_i access hacc
      simp only [Except.ok.injEq] at h
      subst h
      unfold validate_refresh_token at hv
      split at hv
      · exact absurd hv (by simp)
      · rename_i row hrow
        split at hv
        · exact absurd hv (by simp)
        · rename_i uj huj
          simp only [Option.some.injEq] at hv
          subst hv
          unfold issue_access_token at hacc
          split at hacc
          · exact absurd hacc (by simp)
          · simp only [Except.ok.injEq] at hacc
            subst hacc
            exact ⟨rfl, row, uj.1, uj.2, hrow, by simpa using huj, rfl, rfl, rfl⟩

set_option maxRecDepth 10000 in
/-- C3, witness: the concrete refresh of `"rt-1"` at time 50 inherits
subject and thumbprint from session 5 and echoes the token. -/
theorem refresh_inherits_session_binding_witness :
    (⟨⟨"iss", "aud", "11111111-1111-1111-1111-111111111111", 650, "jti-9", some ⟨"T"⟩⟩,
       "rt-1", "Bearer", 600, 5⟩ : IssuedTokenPair).refresh_token = "rt-1" ∧
    ∃ row sess_user sess_jkt,
      RefreshTokenRepo.find_active_by_hash fixDbRefresh.refresh (hash_refresh_token "rt-1") 50
        = some row ∧
      AuthSessionRepo.lookup_refresh_context fixDbRefresh.sessions row.session_id
        = some (sess_user, sess_jkt) ∧
      (⟨⟨"iss", "aud", "11111111-1111-1111-1111-111111111111", 650, "jti-9", some ⟨"T"⟩⟩,
         "rt-1", "Bearer", 600, 5⟩ : IssuedTokenPair).access_token.sub = sess_user ∧
      (⟨⟨"iss", "aud", "11111111-1111-1111-1111-111111111111", 650, "jti-9", some ⟨"T"⟩⟩,
         "rt-1", "Bearer", 600, 5⟩ : IssuedTokenPair).access_token.cnf
        = sess_jkt.map (fun j => ⟨j⟩) ∧
      (⟨⟨"iss", "aud", "11111111-1111-1111-1111-111111111111", 650, "jti-9", some ⟨"T"⟩⟩,
         "rt-1", "Bearer", 600, 5⟩ : IssuedTokenPair).session_id = row.session_id :=
  refresh_inherits_session_binding ⟨"iss", "aud", 600⟩ fixDbRefresh "rt-1" 50 "jti-9"
    ⟨⟨"iss", "aud", "11111111-1111-1111-1111-111111111111", 650, "jti-9", some ⟨"T"⟩⟩,
      "rt-1", "Bearer", 600, 5⟩ (by rfl)

/-! ## C8 -/

/-- C8: with `require_ath` set, (a) every accepted proof was presented
with a bearer token and its decoded `ath` claim equals
`base64url-no-pad(SHA-256(utf8(bearer)))` (`compute_ath`); and (b) on a
proof that passes every other check (witnessed by acceptance under the
same policy with `require_ath := false`), a missing bearer token or a
missing `ath` claim rejects with `MissingClaim "ath"`, a differing value
rejects with `AthMismatch`, and the matching value is accepted. -/
theorem verify_proof_ath_contract (lib : JwtLib) (headers : HeaderMap) (method : String)
    (uri : Uri) (access jkt pub : Option String) (now : Int) :
    (∀ (policy : DpopPolicy) (v : VerifiedDpop), policy.require_ath = true →
       verify_proof lib policy headers method uri access jkt pub now = .ok (some v) →
       ∃ a, access = some a ∧
         ∃ proof header jwk claims,
           headerGet headers "DPoP" = some proof ∧ lib.decodeHeader proof = some header ∧
           header.jwk = some jwk ∧ lib.decodeVerify proof jwk = some claims ∧
           claims.ath = some (compute_ath a)) ∧
    (∀ (policy : DpopPolicy) (v : VerifiedDpop),
       verify_proof lib { policy with require_ath := false } headers method uri access jkt pub now
         = .ok (some v) →
       (access = none →
          verify_proof lib { policy with require_ath := true } headers method uri access jkt pub now
            = .error (.MissingClaim "ath")) ∧
       ∃ proof header jwk claims,
         headerGet headers "DPoP" = some proof ∧
         lib.decodeHeader proof = some header ∧
         header.jwk = some jwk ∧
         lib.decodeVerify proof jwk = some claims ∧
         (claims.ath = none → ∀ a, access = some a →
            verify_proof lib { policy with require_ath := true } headers method uri access jkt pub now
              = .error (.MissingClaim "ath")) ∧
         (∀ athv, claims.ath = some athv → ∀ a, access = some a →
            (athv = compute_ath a →
              verify_proof lib { policy with require_ath := true } headers method uri access jkt pub now
                = .ok (some v)) ∧
            (athv ≠ compute_ath a →
              verify_proof lib { policy with require_ath := true } headers method uri access jkt pub now
                = .error .AthMismatch))) := by
  constructor
  · intro policy v hra h
    obtain ⟨hreq, proof, header, jwk, claims, hproof, hheader, htypx, halg, hjwk, hfrom,
      hjkt, hclaims, hhtm, hhtu, hiat, hjti, hmeth, huri, hwin, hath, hnonce, hvn⟩ :=
      verify_proof_ok_elim lib policy headers method uri access jkt pub now v h
    rw [hra] at hath
    unfold check_ath at hath
    cases access with
    | none => exact absurd hath (by simp)
    | some a =>
      cases hca : claims.ath with
      | none => rw [hca] at hath; exact absurd hath (by simp)
      | some athv =>
        rw [hca] at hath
        by_cases he : athv = compute_ath a
        · exact ⟨a, rfl, proof, header, jwk, claims, hproof, hheader, hjwk, hclaims, he ▸ hca⟩
        · exact absurd hath (by simp [he])
  · intro policy v h
    obtain ⟨hreq, proof, header, jwk, claims, hproof, hheader, ⟨typ, htyp, htypeq⟩, halg,
      hjwk, hfrom, hjkt, hclaims, hhtm, hhtu, hiat, hjti, hmeth, huri, hwin, hath, hnonce,
      hvn⟩ := verify_proof_ok_elim lib { policy with require_ath := false } headers method
        uri access jkt pub now v h
    have heval := verify_proof_eval lib { policy with require_ath := true } headers method
      uri access jkt pub now proof typ v.htm v.htu v.jti v.iat header jwk claims hreq hproof
      hheader htyp htypeq halg hjwk hfrom hjkt hclaims hhtm hhtu hiat hjti hmeth huri hwin
    refine ⟨?_, proof, header, jwk, claims, hproof, hheader, hjwk, hclaims, ?_, ?_⟩
    · intro han
      subst han
      simpa [check_ath] using heval
    · intro hca a ha
      subst ha
      rw [hca] at heval
      simpa [check_ath] using heval
    · intro athv hca a ha
      subst ha
      rw [hca] at heval
      constructor
      · intro he
        have hnonce' : ¬(policy.require_nonce = true ∧ claims.nonce = none) := hnonce
        simp only [check_ath, he, ne_eq, not_true_eq_false, if_false, reduceIte] at heval
        rw [heval]
        simp only [hnonce', if_false, reduceIte]
        rw [← hvn]
      · intro he
        simpa [check_ath, he] using heval

set_option maxRecDepth 10000 in
/-- C8, witness: a concrete accepted proof under `require_ath` whose `ath`
equals `compute_ath` of the presented bearer token. -/
theorem verify_proof_ath_contract_witness :
    ∃ a, (some "tok-1" : Option String) = some a ∧
      ∃ proof header jwk claims,
        headerGet [("dpop", "proof-1")] "DPoP" = some proof ∧
        (fixLib (fixClaims (some (compute_ath "tok-1")))).decodeHeader proof = some header ∧
        header.jwk = some jwk ∧
        (fixLib (fixClaims (some (compute_ath "tok-1")))).decodeVerify proof jwk = some claims ∧
        claims.ath = some (compute_ath a) :=
  (verify_proof_ath_contract (fixLib (fixClaims (some (compute_ath "tok-1"))))
    [("dpop", "proof-1")] "GET" ⟨"/r", none⟩ (some "tok-1") none
    (some "https://api.example.com") 1000).1
    { fixPolicy with require_ath := true }
    ⟨"jti-1", 1000, "GET", "https://api.example.com/r", none⟩ (by rfl) (by rfl)

/-! ## C7 helper lemmas -/

/-- Characters are equal when their code points are. -/
theorem charEq_of_toNat {c d : Char} (h : c.toNat = d.toNat) : c = d :=
  Char.ext (UInt32.ext h)

/-- Strings are equal when their character lists are. -/
theorem strEq_of_data {s t : String} (h : s.data = t.data) : s = t := by
  cases s; cases t; exact congrArg String.mk h

/-- `Char.ofNat` below the surrogate range keeps its code point. -/
theorem toNat_ofNat_char (n : Nat) (h : n < 55296) : (Char.ofNat n).toNat = n := by
  have hv : n.isValidChar := Or.inl h
  simp [Char.ofNat, hv, Char.ofNatAux, Char.toNat, UInt32.toNat, BitVec.toNat_ofNatLt]

/-- ASCII lowercasing is idempotent. -/
theorem asciiLower_idem (c : Char) : asciiLower (asciiLower c) = asciiLower c := by
  unfold asciiLower
  by_cases h : 65 ≤ c.toNat ∧ c.toNat ≤ 90
  · have ht : (Char.ofNat (c.toNat + 32)).toNat = c.toNat + 32 :=
      toNat_ofNat_char _ (by omega)
    rw [if_pos h, if_neg (by simp only [ht]; omega)]
  · rw [if_neg h, if_neg h]

/-- Idempotence, lifted to lists. -/
theorem asciiLowerList_idem (cs : List Char) :
    asciiLowerList (asciiLowerList cs) = asciiLowerList cs := by
  simp [asciiLowerList, List.map_map, Function.comp, asciiLower_idem]

/-- An ASCII letter is not one of the URL delimiters. -/
theorem isAlphaChar_ne {c : Char} (h : isAlphaChar c = true) :
    c ≠ ':' ∧ c ≠ '/' ∧ c ≠ '?' := by
  refine ⟨?_, ?_, ?_⟩ <;> (intro he; subst he; revert h; decide)

/-- A host character is not one of the URL delimiters. -/
theorem isHostChar_ne {c : Char} (h : isHostChar c = true) :
    c ≠ ':' ∧ c ≠ '/' ∧ c ≠ '?' := by
  refine ⟨?_, ?_, ?_⟩ <;> (intro he; subst he; revert h; decide)

/-- A digit is not one of the URL delimiters. -/
theorem isDig_ne {c : Char} (h : isDig c = true) :
    c ≠ ':' ∧ c ≠ '/' ∧ c ≠ '?' := by
  refine ⟨?_, ?_, ?_⟩ <;> (intro he; subst he; revert h; decide)

/-- A path character is not `?`. -/
theorem isPathChar_ne {c : Char} (h : isPathChar c = true) : c ≠ '?' := by
  intro he; subst he; revert h; decide

/-- `takeUntil` passes over a prefix on which the predicate is false. -/
theorem takeUntil_append (p : Char → Bool) (xs ys : List Char)
    (h : ∀ c ∈ xs, p c = false) :
    takeUntil p (xs ++ ys) = (xs ++ (takeUntil p ys).1, (takeUntil p ys).2) := by
  induction xs with
  | nil => simp [takeUntil]
  | cons c cs ih =>
    have hc : p c = false := h c (List.mem_cons_self c cs)
    simp [takeUntil, hc, ih (fun d hd => h d (List.mem_cons_of_mem c hd))]

/-- `takeUntil` splits exactly at the first stop character. -/
theorem takeUntil_stop (p : Char → Bool) (xs : List Char) (y : Char) (t : List Char)
    (h : ∀ c ∈ xs, p c = false) (hy : p y = true) :
    takeUntil p (xs ++ y :: t) = (xs, y :: t) := by
  rw [takeUntil_append p xs _ h]
  simp [takeUntil, hy]

/-- `takeUntil` consumes a list without stop characters whole. -/
theorem takeUntil_all (p : Char → Bool) (xs : List Char)
    (h : ∀ c ∈ xs, p c = false) : takeUntil p xs = (xs, []) := by
  have := takeUntil_append p xs [] h
  simpa [takeUntil] using this

/-- `splitScheme` splits at the first `://`. -/
theorem splitScheme_append (xs rest : List Char) (h : ∀ c ∈ xs, c ≠ ':') :
    splitScheme (xs ++ ':' :: '/' :: '/' :: rest) = some (xs, rest) := by
  induction xs with
  | nil => rfl
  | cons c cs ih =>
    have hc : c ≠ ':' := h c (List.mem_cons_self c cs)
    simp [splitScheme, hc, ih (fun d hd => h d (List.mem_cons_of_mem c hd))]

/-- Digit characters of numbers below ten. -/
theorem dch_isDig : ∀ m, m < 10 → isDig (dch m) = true := by decide

/-- Value of a digit character of a number below ten. -/
theorem dch_val : ∀ m, m < 10 → (dch m).toNat - 48 = m := by decide

/-- `digitsVal` peels its last digit. -/
theorem digitsVal_append (xs : List Char) (c : Char) :
    digitsVal (xs ++ [c]) = 10 * digitsVal xs + (c.toNat - 48) := by
  unfold digitsVal
  rw [List.foldl_append]
  simp [List.foldl]
  omega

/-- Every character `natDigitsFuel` emits is a digit. -/
theorem natDigitsFuel_isDig : ∀ fuel n c, c ∈ natDigitsFuel fuel n → isDig c = true := by
  intro fuel
  induction fuel with
  | zero => intro n c hc; simp [natDigitsFuel] at hc
  | succ fuel ih =>
    intro n c hc
    unfold natDigitsFuel at hc
    by_cases h10 : n < 10
    · simp only [h10, if_true, reduceIte, List.mem_singleton] at hc
      subst hc
      exact dch_isDig n h10
    · simp only [h10, if_false, reduceIte, List.mem_append, List.mem_singleton] at hc
      rcases hc with hc | hc
      · exact ih _ _ hc
      · subst hc
        exact dch_isDig _ (Nat.mod_lt _ (by omega))

/-- `natDigitsFuel` with positive fuel emits at least one character. -/
theorem natDigitsFuel_ne_nil (fuel n : Nat) (h : fuel ≠ 0) : natDigitsFuel fuel n ≠ [] := by
  cases fuel with
  | zero => exact absurd rfl h
  | succ fuel =>
    unfold natDigitsFuel
    by_cases h10 : n < 10 <;> simp [h10]

/-- `natDigitsFuel` with enough fuel denotes its input. -/
theorem natDigitsFuel_val : ∀ fuel n, n < fuel → digitsVal (natDigitsFuel fuel n) = n := by
  intro fuel
  induction fuel with
  | zero => intro n hn; omega
  | succ fuel ih =>
    intro n hn
    unfold natDigitsFuel
    by_cases h10 : n < 10
    · simp only [h10, if_true, reduceIte]
      have : digitsVal [dch n] = (dch n).toNat - 48 := by
        simp [digitsVal, List.foldl]
      rw [this, dch_val n h10]
    · simp only [h10, if_false, reduceIte]
      rw [digitsVal_append, ih (n / 10) (by omega), dch_val _ (Nat.mod_lt _ (by omega))]
      omega

/-- `natDigits` denotes its input, is nonempty, and is all digits. -/
theorem natDigits_spec (n : Nat) :
    digitsVal (natDigits n) = n ∧ natDigits n ≠ [] ∧
    ∀ c ∈ natDigits n, isDig c = true :=
  ⟨natDigitsFuel_val (n + 1) n (by omega), natDigitsFuel_ne_nil (n + 1) n (by omega),
   fun c hc => natDigitsFuel_isDig (n + 1) n c hc⟩

/-- The normalization's default-port test agrees with `defaultPort`. -/
theorem defaultPort_cond (s : String) (p : Nat) :
    ((s = "http" ∧ p = 80) ∨ (s = "https" ∧ p = 443)) ↔ defaultPort s = some p := by
  unfold defaultPort
  by_cases h1 : s = "http"
  · simp [h1, eq_comm]
  · by_cases h2 : s = "https" <;> simp [h1, h2, eq_comm]

/-- `splitOnSlash` never yields an empty segment list. -/
theorem splitOnSlash_ne_nil (cs : List Char) : splitOnSlash cs ≠ [] := by
  cases cs with
  | nil => simp [splitOnSlash]
  | cons c cs =>
    unfold splitOnSlash
    by_cases hc : c = '/'
    · simp [hc]
    · simp only [hc, if_false, reduceIte]
      cases h : splitOnSlash cs <;> simp

/-- Serialization prefixes each segment with `/`. -/
theorem serializeSegs_cons (s : List Char) (l : List (List Char)) :
    serializeSegs (s :: l) = '/' :: (s ++ serializeSegs l) := by
  simp [serializeSegs]

/-- Serializing the segments of a path remainder restores the path. -/
theorem serializeSegs_splitOnSlash (rest : List Char) :
    serializeSegs (splitOnSlash rest) = '/' :: rest := by
  induction rest with
  | nil => rfl
  | cons c cs ih =>
    unfold splitOnSlash
    by_cases hc : c = '/'
    · subst hc
      simp only [if_true, reduceIte, serializeSegs_cons, List.nil_append, ih]
    · simp only [hc, if_false, reduceIte]
      obtain ⟨s, r, hsr⟩ : ∃ s r, splitOnSlash cs = s :: r := by
        cases h : splitOnSlash cs with
        | nil => exact absurd h (splitOnSlash_ne_nil cs)
        | cons s r => exact ⟨s, r, rfl⟩
      rw [hsr]
      rw [hsr] at ih
      simp only [serializeSegs_cons] at ih ⊢
      have htail : s ++ serializeSegs r = cs := by
        simpa using ih
      rw [List.cons_append, htail]

/-- Collapsing is the identity on segment lists without dot segments. -/
theorem collapseDotSegments_normal (segs : List (List Char))
    (h : ∀ s ∈ segs, isSingleDotSeg s = false ∧ isDoubleDotSeg s = false) :
    ∀ out, segs ≠ [] → collapseDotSegments out segs = out ++ segs := by
  induction segs with
  | nil => intro out hne; exact absurd rfl hne
  | cons s rest ih =>
    intro out _
    have hs := h s (List.mem_cons_self s rest)
    cases rest with
    | nil => simp [collapseDotSegments, hs.1, hs.2]
    | cons s2 r2 =>
      unfold collapseDotSegments
      simp only [hs.1, hs.2, if_false, reduceIte]
      rw [ih (fun t ht => h t (List.mem_cons_of_mem s ht)) (out ++ [s]) (by simp)]
      simp

/-- Paths without dot segments are preserved verbatim. -/
theorem normalizePathList_id (ps : List Char)
    (h : ∀ s ∈ splitOnSlash ps, isSingleDotSeg s = false ∧ isDoubleDotSeg s = false) :
    normalizePathList ('/' :: ps) = '/' :: ps := by
  have hdef : normalizePathList ('/' :: ps)
      = serializeSegs (collapseDotSegments [] (splitOnSlash ps)) := rfl
  rw [hdef, collapseDotSegments_normal (splitOnSlash ps) h [] (splitOnSlash_ne_nil ps)]
  simpa using serializeSegs_splitOnSlash ps

/-- Parsing a well-formed absolute URL string recovers its components:
scheme and host lowercased, an in-range default port hidden, query
verbatim, and the path verbatim when it contains no dot segments. -/
theorem urlParse_mkUrlStr
    (scheme host : List Char) (port : Option Nat) (ps : List Char)
    (query : Option (List Char))
    (hs1 : scheme ≠ []) (hs2 : ∀ c ∈ scheme, isAlphaChar c = true)
    (hh1 : host ≠ []) (hh2 : ∀ c ∈ host, isHostChar c = true)
    (hp2 : ∀ c ∈ '/' :: ps, isPathChar c = true)
    (hpb : ∀ p, port = some p → p < 65536)
    (hnd : ∀ s ∈ splitOnSlash ps, isSingleDotSeg s = false ∧ isDoubleDotSeg s = false)
    (hq : ∀ q, query = some q → ∀ c ∈ q, isQueryChar c = true) :
    urlParse (mkUrlStr scheme host port ('/' :: ps) query) =
      some ⟨⟨asciiLowerList scheme⟩, ⟨asciiLowerList host⟩,
            stripDefaultPort ⟨asciiLowerList scheme⟩ port,
            ⟨'/' :: ps⟩, query.map (fun q => ⟨q⟩)⟩ := by
  have hsch : ∀ c ∈ scheme, c ≠ ':' := fun c hc => (isAlphaChar_ne (hs2 c hc)).1
  have hsa : scheme.all isAlphaChar = true := List.all_eq_true.mpr hs2
  have hha : host.all isHostChar = true := List.all_eq_true.mpr hh2
  have hpa : ('/' :: ps).all isPathChar = true := List.all_eq_true.mpr hp2
  have hhcolon : ∀ c ∈ host, decide (c = ':') = false := by
    intro c hc
    simp only [decide_eq_false_iff_not]
    exact (isHostChar_ne (hh2 c hc)).1
  have hpath : ∀ c ∈ '/' :: ps, decide (c = '?') = false := by
    intro c hc
    simp only [decide_eq_false_iff_not]
    exact isPathChar_ne (hp2 c hc)
  have hstopHost : ∀ c ∈ host ++ portChars port, decide (c = '/' ∨ c = '?') = false := by
    intro c hc
    simp only [decide_eq_false_iff_not]
    rcases List.mem_append.mp hc with h | h
    · have := isHostChar_ne (hh2 c h)
      tauto
    · cases port with
      | none => simp [portChars] at h
      | some p =>
        simp only [portChars] at h
        rcases List.mem_cons.mp h with rfl | h
        · decide
        · have := isDig_ne (natDigitsFuel_isDig _ _ _ h)
          tauto
  have hhp : parseHostPort (takeUntil (fun c => decide (c = ':')) (host ++ portChars port))
      = some (host, port) := by
    cases port with
    | none =>
      rw [show host ++ portChars none = host by simp [portChars]]
      rw [takeUntil_all _ _ hhcolon]
      simp [parseHostPort, hh1, hha]
    | some p =>
      rw [show host ++ portChars (some p) = host ++ ':' :: natDigits p from rfl]
      rw [takeUntil_stop _ _ ':' _ hhcolon (by decide)]
      obtain ⟨hv, hn, hd⟩ := natDigits_spec p
      simp [parseHostPort, hh1, hha, hn, List.all_eq_true.mpr hd, hv, hpb p rfl]
  have hslash : ∀ rest : List Char, parsePathQuery ('/' :: rest) =
      if ¬ (takeUntil (fun c => decide (c = '?')) ('/' :: rest)).1.all isPathChar then none
      else
        match (takeUntil (fun c => decide (c = '?')) ('/' :: rest)).2 with
        | [] => some (normalizePathList (takeUntil (fun c => decide (c = '?')) ('/' :: rest)).1, none)
        | _ :: q =>
            if q.all isQueryChar then
              some (normalizePathList (takeUntil (fun c => decide (c = '?')) ('/' :: rest)).1, some q)
            else none := fun rest => rfl
  have hpq : parsePathQuery ('/' :: (ps ++ queryChars query))
      = some ('/' :: ps, query) := by
    cases query with
    | none =>
      rw [show ps ++ queryChars none = ps by simp [queryChars]]
      rw [hslash, takeUntil_all _ _ hpath]
      simp [hpa, normalizePathList_id ps hnd]
    | some q =>
      rw [show ps ++ queryChars (some q) = ps ++ '?' :: q from rfl]
      have hts := takeUntil_stop _ ('/' :: ps) '?' q hpath (by decide)
      rw [show (('/' :: ps) ++ '?' :: q) = '/' :: (ps ++ '?' :: q) from rfl] at hts
      rw [hslash, hts]
      have hqa : q.all isQueryChar = true := List.all_eq_true.mpr (hq q rfl)
      simp [hpa, hqa, normalizePathList_id ps hnd]
  unfold urlParse mkUrlStr
  rw [show (String.mk (scheme ++ ':' :: '/' :: '/' ::
        (host ++ portChars port ++ ('/' :: ps) ++ queryChars query))).data
      = scheme ++ ':' :: '/' :: '/' ::
        (host ++ portChars port ++ ('/' :: ps) ++ queryChars query) from rfl]
  rw [splitScheme_append _ _ hsch]
  have hassoc : host ++ portChars port ++ ('/' :: ps) ++ queryChars query
      = (host ++ portChars port) ++ ('/' :: (ps ++ queryChars query)) := by
    simp [List.append_assoc]
  simp only [hs1, hsa, Bool.not_eq_true, not_true, not_false_eq_true, false_or, or_false,
    reduceIte, if_false, hassoc, takeUntil_stop _ _ '/' _ hstopHost (by decide), hhp, hpq]
  cases port <;> rfl

/-- C7, counterexample: the normalization does NOT preserve the path
verbatim — the WHATWG parser behind `url::Url::parse` collapses dot
segments, so `http://h/a/../b` normalizes to `http://h/b`; and a port
above `u16::MAX` makes parsing fail, so `HTTP://h:99999/x` is returned
unchanged, its scheme not even lowercased. -/
theorem normalize_htu_not_verbatim :
    normalize_htu "http://h/a/../b" = "http://h/b" ∧
    (urlParse "http://h/a/../b").map Url.path = some "/b" ∧
    ("/b" : String) ≠ "/a/../b" ∧
    urlParse "HTTP://h:99999/x" = none ∧
    normalize_htu "HTTP://h:99999/x" = "HTTP://h:99999/x" :=
  ⟨by decide, by decide, by decide, by decide, by decide⟩

/-- C7, amended: on the modelled grammar, `normalize_htu` lowercases the
scheme and the host, strips port 80 for http and port 443 for https
(ports parse only up to `u16::MAX`), preserves the query verbatim, and
preserves the path verbatim provided it contains no dot segments — `.` or
`..` segments (and their `%2e` forms) are collapsed by the WHATWG parser
before comparison; the two concrete equalities of the claim hold. -/
theorem normalize_htu_spec :
    (∀ (scheme host : List Char) (port : Option Nat) (ps : List Char)
       (query : Option (List Char)),
       scheme ≠ [] → (∀ c ∈ scheme, isAlphaChar c = true) →
       host ≠ [] → (∀ c ∈ host, isHostChar c = true) →
       (∀ c ∈ '/' :: ps, isPathChar c = true) →
       (∀ p, port = some p → p < 65536) →
       (∀ s ∈ splitOnSlash ps, isSingleDotSeg s = false ∧ isDoubleDotSeg s = false) →
       (∀ q, query = some q → ∀ c ∈ q, isQueryChar c = true) →
       normalize_htu (mkUrlStr scheme host port ('/' :: ps) query) =
         mkUrlStr (asciiLowerList scheme) (asciiLowerList host)
           (stripDefaultPort ⟨asciiLowerList scheme⟩ port)
           ('/' :: ps) query) ∧
    normalize_htu "HTTP://Host:80/a?b=1" = normalize_htu "http://host/a?b=1" ∧
    normalize_htu "https://H:443/" = normalize_htu "https://h/" := by
  refine ⟨?_, by decide, by decide⟩
  intro scheme host port ps query hs1 hs2 hh1 hh2 hp2 hpb hnd hq
  unfold normalize_htu
  rw [urlParse_mkUrlStr scheme host port ps query hs1 hs2 hh1 hh2 hp2 hpb hnd hq]
  simp only [asciiLowerStr, asciiLowerList_idem]
  have hport : (match stripDefaultPort (⟨asciiLowerList scheme⟩ : String) port with
      | some p =>
          if (⟨asciiLowerList scheme⟩ : String) = "http" ∧ p = 80 ∨
             (⟨asciiLowerList scheme⟩ : String) = "https" ∧ p = 443 then none
          else some p
      | none => none)
      = stripDefaultPort (⟨asciiLowerList scheme⟩ : String) port := by
    cases port with
    | none => rfl
    | some p =>
      by_cases hdp : defaultPort (⟨asciiLowerList scheme⟩ : String) = some p
      · simp [stripDefaultPort, hdp]
      · simp [stripDefaultPort, hdp, defaultPort_cond]
  rw [hport]
  generalize stripDefaultPort (⟨asciiLowerList scheme⟩ : String) port = stripped
  apply strEq_of_data
  cases stripped <;> cases query <;>
    simp [mkUrlStr, portChars, queryChars, String.data_append, List.append_assoc]

/-- C7, witness: the general normalization shape at
`HTTP://Host:80/a?b=1` — scheme and host lowercased, default port 80
stripped, dot-segment-free path and query verbatim. -/
theorem normalize_htu_spec_witness :
    normalize_htu (mkUrlStr "HTTP".data "Host".data (some 80) ('/' :: "a".data)
        (some "b=1".data)) =
      mkUrlStr (asciiLowerList "HTTP".data) (asciiLowerList "Host".data)
        (stripDefaultPort ⟨asciiLowerList "HTTP".data⟩ (some 80))
        ('/' :: "a".data) (some "b=1".data) :=
  normalize_htu_spec.1 "HTTP".data "Host".data (some 80) "a".data (some "b=1".data)
    (by decide) (by decide) (by decide) (by decide) (by decide)
    (fun p hp => by
      have h := Option.some.inj hp
      subst h
      decide)
    (by decide)
    (fun q hq => by
      have h := Option.some.inj hq
      subst h
      decide)
